import Mathlib

/-!
Verification development for the invoice file generator
(`generate_invoice.py`).  Documents are modelled as their textual
regions (top-level paragraphs and table-cell paragraphs, each a
`List Char`); the five regular expressions of the source are embedded
as explicit matchers with Python's leftmost / greedy-with-backtracking
search semantics; `datetime` values are triples of naturals with the
1..9999 year range, and raised exceptions are modelled with
`Except` / `Option`.
-/

/-! ### Characters and decimal rendering -/

/-- Text of a document region, one Python string. -/
abbrev Text := List Char

/-- Python `\d` on ASCII input. -/
def isDigitCh (c : Char) : Bool := '0' ≤ c && c ≤ '9'

/-- Python `[A-Za-z]`. -/
def isLetterCh (c : Char) : Bool := ('A' ≤ c && c ≤ 'Z') || ('a' ≤ c && c ≤ 'z')

/-- Python `\s` on ASCII input. -/
def isSpaceCh (c : Char) : Bool :=
  c = ' ' || c = '\t' || c = '\n' || c = '\x0b' || c = '\x0c' || c = '\r'

/-- The decimal digit character for `k` (meaningful for `k ≤ 9`). -/
def dchar (k : Nat) : Char := Char.ofNat (48 + k)

/-- Fuelled decimal rendering of a natural (fuel keeps recursion structural). -/
def natDigitsF : Nat → Nat → Text
  | 0, _ => []
  | fuel + 1, n => if n < 10 then [dchar n] else natDigitsF fuel (n / 10) ++ [dchar (n % 10)]

/-- Python `str` on a nonnegative `int`. -/
def natDigits (n : Nat) : Text := natDigitsF (n + 1) n

/-- Numeric value of a string of decimal digits (Python `int`). -/
def digitsToNat (xs : Text) : Nat := xs.foldl (fun acc c => acc * 10 + (c.toNat - 48)) 0

/-- Python `f"{n:02d}"` for a nonnegative `int`. -/
def pad2 (n : Nat) : Text := if n < 10 then '0' :: natDigits n else natDigits n

/-- A year rendered with exactly four digits (as the `\d{4}` regions of
prior documents carry it); for `n ≤ 9999` this is the zero-padded form. -/
def pad4 (n : Nat) : Text :=
  [dchar (n / 1000 % 10), dchar (n / 100 % 10), dchar (n / 10 % 10), dchar (n % 10)]

/-- Python `s[-2:]`. -/
def lastTwo (xs : Text) : Text := xs.drop (xs.length - 2)

/-- Python `needle in hay` (substring test). -/
def containsSub (needle : Text) : Text → Bool
  | [] => needle.isEmpty
  | c :: t => needle.isPrefixOf (c :: t) || containsSub needle t

/-! ### Matchers for the five regular expressions of the source

A matcher consumes a prefix of its input and returns the remaining
suffix, `none` when there is no match starting at the first character.
`\s+`, `[A-Za-z]+` are maximal-munch (equivalent to Python's greedy
matching here because each is followed by a disjoint character class);
`\d{1,2}` tries two digits and falls back to one, exactly as the
backtracking engine does. -/

/-- A matcher: consume a prefix, return the rest. -/
abbrev PM := Text → Option Text

/-- Literal text. -/
def litM (xs : Text) : PM := fun s => if xs.isPrefixOf s then some (s.drop xs.length) else none

/-- `p+`, greedy. -/
def many1M (p : Char → Bool) : PM :=
  fun s => if (s.takeWhile p).isEmpty then none else some (s.dropWhile p)

/-- `p{n}` (exactly `n` characters of class `p`). -/
def nCharsM (n : Nat) (p : Char → Bool) : PM :=
  fun s => if (s.take n).length = n && (s.take n).all p then some (s.drop n) else none

/-- `(st|nd|rd|th)`. -/
def suffix2M : PM
  | a :: b :: r =>
    if (a = 's' && b = 't') || (a = 'n' && b = 'd') || (a = 'r' && b = 'd') || (a = 't' && b = 'h')
    then some r else none
  | _ => none

/-- `\d{1,2}` followed by continuation `k`: try two digits, fall back to one. -/
def ddG (k : Text → Option α) : Text → Option α
  | [] => none
  | [a] => if isDigitCh a then k [] else none
  | a :: b :: r =>
    if isDigitCh a then
      if isDigitCh b then ((k r).orElse (fun _ => k (b :: r))) else k (b :: r)
    else none

/-- `Date:`. -/
def dateLabel : Text := "Date:".toList

/-- `Invoice No:`. -/
def invLabel : Text := "Invoice No:".toList

/-- After the day digits of an ordinal date: suffix, spaces, month
word, spaces, four year digits. -/
def d1Cont : PM := fun s =>
  (suffix2M s).bind fun s3 =>
  (many1M isSpaceCh s3).bind fun s4 =>
  (many1M isLetterCh s4).bind fun s5 =>
  (many1M isSpaceCh s5).bind (nCharsM 4 isDigitCh)

/-- Pattern `Date:\s+\d{1,2}(st|nd|rd|th)\s+[A-Za-z]+\s+\d{4}` (long-form date). -/
def matchAtD1 : PM := fun s =>
  (litM dateLabel s).bind fun s1 =>
  (many1M isSpaceCh s1).bind (ddG d1Cont)

/-- After the day digits of a slash date: `/`, two digits, `/`, four digits. -/
def d2Cont : PM := fun s =>
  (litM ['/'] s).bind fun s1 =>
  (nCharsM 2 isDigitCh s1).bind fun s2 =>
  (litM ['/'] s2).bind (nCharsM 4 isDigitCh)

/-- Pattern `\d{1,2}/\d{2}/\d{4}` (slash-form date). -/
def matchAtD2 : PM := ddG d2Cont

/-- Pattern `IN\d{4}/\d{4}-\d{2}` (invoice number). -/
def matchAtInv : PM := fun s =>
  (litM ['I', 'N'] s).bind fun s1 =>
  (nCharsM 4 isDigitCh s1).bind fun s2 =>
  (litM ['/'] s2).bind fun s3 =>
  (nCharsM 4 isDigitCh s3).bind fun s4 =>
  (litM ['-'] s4).bind (nCharsM 2 isDigitCh)

/-- After the day digits of the second ordinal date of a service
period. -/
def spCont2 : PM := fun s =>
  (suffix2M s).bind fun s9 =>
  (many1M isSpaceCh s9).bind fun s10 =>
  (many1M isLetterCh s10).bind fun s11 =>
  (many1M isSpaceCh s11).bind (nCharsM 4 isDigitCh)

/-- After the day digits of the first ordinal date of a service period:
rest of the first date, `\s+to\s+`, second ordinal date. -/
def spCont1 : PM := fun s =>
  (suffix2M s).bind fun s1 =>
  (many1M isSpaceCh s1).bind fun s2 =>
  (many1M isLetterCh s2).bind fun s3 =>
  (many1M isSpaceCh s3).bind fun s4 =>
  (nCharsM 4 isDigitCh s4).bind fun s5 =>
  (many1M isSpaceCh s5).bind fun s6 =>
  (litM ['t', 'o'] s6).bind fun s7 =>
  (many1M isSpaceCh s7).bind (ddG spCont2)

/-- Pattern
`\d{1,2}(st|nd|rd|th)\s+[A-Za-z]+\s+\d{4}\s+to\s+\d{1,2}(st|nd|rd|th)\s+[A-Za-z]+\s+\d{4}`
(service period). -/
def matchAtSp : PM := ddG spCont1

/-- After the day digits in the extractor's pattern, keeping the two
capture groups (month word, year digits). -/
def extCont : Text → Option (Text × Text) := fun s =>
  (suffix2M s).bind fun s1 =>
  (many1M isSpaceCh s1).bind fun s2 =>
  let mo := s2.takeWhile isLetterCh
  if mo.isEmpty then none else
    (many1M isSpaceCh (s2.dropWhile isLetterCh)).bind fun s3 =>
    if (s3.take 4).length = 4 && (s3.take 4).all isDigitCh
    then some (mo, s3.take 4) else none

/-- Pattern `\d{1,2}(st|nd|rd|th)\s+([A-Za-z]+)\s+(\d{4})` of the extractor,
returning the two capture groups (month name, year digits). -/
def matchAtExt : Text → Option (Text × Text) := ddG extCont

/-- `re.search`: try the matcher at position 0, 1, 2, … and return the
first result. -/
def searchSome (m : Text → Option α) : Text → Option α
  | [] => m []
  | c :: t =>
    match m (c :: t) with
    | some r => some r
    | none => searchSome m t

/-- `re.sub` with fuel: replace every non-overlapping match, scanning
left to right and continuing after each replacement. -/
def subAllF (m : PM) (repl : Text) : Nat → Text → Text
  | 0, s => s
  | fuel + 1, s =>
    match m s with
    | some rest =>
      if rest.length < s.length then repl ++ subAllF m repl fuel rest
      else match s with
        | [] => []
        | c :: t => c :: subAllF m repl fuel t
    | none =>
      match s with
      | [] => []
      | c :: t => c :: subAllF m repl fuel t

/-- `re.sub pattern repl s` (all our patterns consume at least one
character, so `s.length` fuel suffices). -/
def subAll (m : PM) (repl : Text) (s : Text) : Text := subAllF m repl s.length s

/-! ### Calendar values (`generate_invoice.py` lines 18–35, 75–92) -/

/-- A `datetime` value (restricted to its date part; the source only ever
uses year, month, day). -/
structure PDate where
  year : Nat
  month : Nat
  day : Nat
deriving DecidableEq

/-- Full month name of `strftime('%B')` for a valid month number. -/
def monthName : Nat → Text
  | 1 => "January".toList
  | 2 => "February".toList
  | 3 => "March".toList
  | 4 => "April".toList
  | 5 => "May".toList
  | 6 => "June".toList
  | 7 => "July".toList
  | 8 => "August".toList
  | 9 => "September".toList
  | 10 => "October".toList
  | 11 => "November".toList
  | 12 => "December".toList
  | _ => []

/-- `strptime`'s `%B` directive: a full month name, case-insensitively
(CPython lowercases the candidate and indexes the month-name table). -/
def monthFromName (xs : Text) : Option Nat :=
  let l := xs.map Char.toLower
  if l = "january".toList then some 1
  else if l = "february".toList then some 2
  else if l = "march".toList then some 3
  else if l = "april".toList then some 4
  else if l = "may".toList then some 5
  else if l = "june".toList then some 6
  else if l = "july".toList then some 7
  else if l = "august".toList then some 8
  else if l = "september".toList then some 9
  else if l = "october".toList then some 10
  else if l = "november".toList then some 11
  else if l = "december".toList then some 12
  else none

/-- Ordinal suffix chosen by `ordinal` (lines 18–24). -/
def sfxTxt (n : Nat) : Text :=
  if 10 ≤ n % 100 && n % 100 ≤ 20 then "th".toList
  else if n % 10 = 1 then "st".toList
  else if n % 10 = 2 then "nd".toList
  else if n % 10 = 3 then "rd".toList
  else "th".toList

/-- `ordinal n` (lines 18–24): the number followed by its suffix. -/
def ordinalTxt (n : Nat) : Text := natDigits n ++ sfxTxt n

/-- `get_financial_year` (lines 30–35): `f"{y}-{str(y+1)[-2:]}"` from
April on, else `f"{y-1}-{str(y)[-2:]}"`. -/
def getFinancialYear (d : PDate) : Text :=
  if 4 ≤ d.month then natDigits d.year ++ ['-'] ++ lastTwo (natDigits (d.year + 1))
  else natDigits (d.year - 1) ++ ['-'] ++ lastTwo (natDigits d.year)

/-- `date + relativedelta(months=1)` for the day-1 dates the deriver
produces; advancing past December 9999 raises (`datetime` years stop at
9999), modelled as `Except.error`. -/
def addMonthE (d : PDate) : Except Unit PDate :=
  if d.month = 12 then
    if d.year + 1 ≤ 9999 then .ok ⟨d.year + 1, 1, d.day⟩ else .error ()
  else .ok ⟨d.year, d.month + 1, d.day⟩

/-- `invoice_date - relativedelta(months=1)` reduced to its (year, month):
stepping before January 0001 raises, modelled as `Except.error`. -/
def prevMonthE (d : PDate) : Except Unit (Nat × Nat) :=
  if d.month = 1 then
    if 2 ≤ d.year then .ok (d.year - 1, 12) else .error ()
  else .ok (d.year, d.month - 1)

deriving instance DecidableEq for Except

/-! ### The Date/Sequence Deriver (lines 37–92) -/

/-- A loaded document: top-level paragraph texts, and tables as
rows of cells of paragraph texts. -/
structure Doc where
  paragraphs : List Text
  tables : List (List (List (List Text)))
deriving DecidableEq

/-- One paragraph of the extractor's loop (lines 52–67): label and
ordinal-suffix guard, regex search, then `strptime("%d %B %Y")` of
`f"1 {month_name} {year}"` with `year = int(group)`.  The f-string
renders the year without leading zeros and `strptime`'s `%Y` matches
exactly four digits, so the parse succeeds exactly when the captured
word is a full month name (any case) and the captured year's value is
at least 1000; smaller years (e.g. a captured `0005`, rendered `5`)
raise `ValueError` and the paragraph is skipped. -/
def extractPara (t : Text) : Option PDate :=
  if containsSub dateLabel t &&
      (containsSub "st ".toList t || containsSub "nd ".toList t ||
       containsSub "rd ".toList t || containsSub "th ".toList t) then
    match searchSome matchAtExt t with
    | some (mo, yr) =>
      match monthFromName mo with
      | some m => if 1000 ≤ digitsToNat yr then some ⟨digitsToNat yr, m, 1⟩ else none
      | none => none
    | none => none
  else none

/-- `extract_date_from_latest_invoice` (lines 48–73): a failing document
load is caught and yields `None`; otherwise the first paragraph that
passes guard, search and parse yields the date. -/
def extractDateDoc (e : Except Unit Doc) : Option PDate :=
  match e with
  | .error _ => none
  | .ok doc => doc.paragraphs.findSome? extractPara

/-- Fold of `max(files, key=getmtime)`: keep the current best, replace
only on a strictly larger key. -/
def findLatestGo (a : α) (t : Nat) : List (α × Nat) → α
  | [] => a
  | (b, u) :: rest => if t < u then findLatestGo b u rest else findLatestGo a t rest

/-- `find_latest_invoice` (lines 37–46): the file with the greatest
modification time, ties resolved to the first listed (Python `max`). -/
def findLatest : List (α × Nat) → Option α
  | [] => none
  | (a, t) :: rest => some (findLatestGo a t rest)

/-- `determine_invoice_date` (lines 75–92): one month after the extracted
date, else the current date with day forced to 1. -/
def determineInvoiceDate (files : List (Except Unit Doc × Nat)) (now : PDate) :
    Except Unit PDate :=
  match findLatest files with
  | none => .ok ⟨now.year, now.month, 1⟩
  | some e =>
    match extractDateDoc e with
    | some last => addMonthE last
    | none => .ok ⟨now.year, now.month, 1⟩

/-! ### The Document Field Rewriter (lines 94–223) -/

/-- The four per-field log messages (`logger.info("Updated …")`), one
emitted each time a field's substitution changes a region. -/
inductive FTag
  | d1
  | d2
  | inv
  | sp
deriving DecidableEq

/-- Rewriter state: the four `*_updated` flags and the update log. -/
structure RState where
  f1 : Bool
  f2 : Bool
  fi : Bool
  fs : Bool
  log : List FTag
deriving DecidableEq

/-- All flags down, empty log (lines 123–126). -/
def st0 : RState := ⟨false, false, false, false, []⟩

/-- `date_format1 = f"{ordinal(d.day)} {d.strftime('%B %Y')}"` (line 116). -/
def dateFormat1 (d : PDate) : Text :=
  ordinalTxt d.day ++ [' '] ++ monthName d.month ++ [' '] ++ natDigits d.year

/-- `date_format2 = f"{d.day:d}/{d.month:02d}/{d.year}"` (line 117). -/
def dateFormat2 (d : PDate) : Text :=
  natDigits d.day ++ ['/'] ++ pad2 d.month ++ ['/'] ++ natDigits d.year

/-- `invoice_number = f"IN{random_num}/{fin_year}"` (lines 107–108). -/
def invoiceNumberStr (r : Nat) (d : PDate) : Text :=
  ['I', 'N'] ++ natDigits r ++ ['/'] ++ getFinancialYear d

/-- `service_period` (line 118) from the invoice date and the (year,
month) of the previous month: day 7 of the previous month to day 6 of
the invoice month, both in ordinal/month-name/year form. -/
def servicePeriodStr (d : PDate) (py pm : Nat) : Text :=
  ordinalTxt (PDate.day ⟨py, pm, 7⟩) ++ [' '] ++ monthName (PDate.month ⟨py, pm, 7⟩) ++ [' '] ++
    natDigits (PDate.year ⟨py, pm, 7⟩) ++ " to ".toList ++
    ordinalTxt (PDate.day ⟨d.year, d.month, 6⟩) ++ [' '] ++
    monthName (PDate.month ⟨d.year, d.month, 6⟩) ++ [' '] ++
    natDigits (PDate.year ⟨d.year, d.month, 6⟩)

/-- Output filename `f"invoice_{d.strftime('%B_%Y').lower()}.docx"` (line 214). -/
def fileNameFor (d : PDate) : Text :=
  "invoice_".toList ++ (monthName d.month ++ ['_'] ++ natDigits d.year).map Char.toLower ++
    ".docx".toList

/-- Long-form date step (lines 129–139): one top-level paragraph.  Guard:
`"Date:" in text` and a bare ordinal suffix substring and flag down; then
search, substitute (all occurrences in the paragraph), and raise the flag
exactly when the text changed. -/
def step1 (d1 : Text) (s : RState) (t : Text) : RState × Text :=
  if containsSub dateLabel t &&
      (containsSub "st".toList t || containsSub "nd".toList t ||
       containsSub "rd".toList t || containsSub "th".toList t) && !s.f1 then
    match searchSome matchAtD1 t with
    | some _ =>
      let t' := subAll matchAtD1 (dateLabel ++ [' '] ++ d1) t
      if t' = t then (s, t') else ({ s with f1 := true, log := s.log ++ [FTag.d1] }, t')
    | none => (s, t)
  else (s, t)

/-- Invoice-number substep (lines 147–155 and 182–190). -/
def invStep (inv : Text) (s : RState) (t : Text) : RState × Text :=
  if containsSub invLabel t && !s.fi then
    match searchSome matchAtInv t with
    | some _ =>
      let t' := subAll matchAtInv inv t
      if t' = t then (s, t') else ({ s with fi := true, log := s.log ++ [FTag.inv] }, t')
    | none => (s, t)
  else (s, t)

/-- Slash-form date substep (lines 158–166 and 193–201). -/
def d2Step (d2 : Text) (s : RState) (t : Text) : RState × Text :=
  if containsSub dateLabel t && containsSub ['/'] t && !s.f2 then
    match searchSome matchAtD2 t with
    | some _ =>
      let t' := subAll matchAtD2 d2 t
      if t' = t then (s, t') else ({ s with f2 := true, log := s.log ++ [FTag.d2] }, t')
    | none => (s, t)
  else (s, t)

/-- Service-period substep (lines 169–176): search first, then check
the flag. -/
def spStep (sp : Text) (s : RState) (t : Text) : RState × Text :=
  match searchSome matchAtSp t with
  | some _ =>
    if !s.fs then
      let t' := subAll matchAtSp sp t
      if t' = t then (s, t') else ({ s with fs := true, log := s.log ++ [FTag.sp] }, t')
    else (s, t)
  | none => (s, t)

/-- One table-cell paragraph (lines 145–176): invoice number, then
slash date, then service period, each seeing the text the previous
substep left. -/
def stepCell (inv d2 sp : Text) (s : RState) (t : Text) : RState × Text :=
  let (s1, t1) := invStep inv s t
  let (s2, t2) := d2Step d2 s1 t1
  spStep sp s2 t2

/-- One paragraph of the additional check (lines 180–201): invoice
number, then slash date. -/
def stepPara2 (inv d2 : Text) (s : RState) (t : Text) : RState × Text :=
  let (s1, t1) := invStep inv s t
  d2Step d2 s1 t1

/-- Structure-preserving stateful traversal (the `for` loops that
mutate `para.text` in place). -/
def statefulMap (f : σ → α → σ × α) : σ → List α → σ × List α
  | s, [] => (s, [])
  | s, a :: l =>
    let (s1, a1) := f s a
    let (s2, l2) := statefulMap f s1 l
    (s2, a1 :: l2)

/-- The whole rewrite of lines 122–211: paragraph pass for the long-form
date, nested table pass for the other three fields, then — when invoice
number or slash date is still missing — the additional paragraph pass. -/
def rewriteDoc (d1 d2 inv sp : Text) (doc : Doc) : Doc × RState :=
  let (sA, ps1) := statefulMap (step1 d1) st0 doc.paragraphs
  let (sB, tbls) :=
    statefulMap (statefulMap (statefulMap (statefulMap (stepCell inv d2 sp)))) sA doc.tables
  let (sC, ps2) := if !sB.fi || !sB.f2 then statefulMap (stepPara2 inv d2) sB ps1 else (sB, ps1)
  (⟨ps2, tbls⟩, sC)

/-- `auto_update_invoice` (lines 94–223) with its external effects made
explicit: the loaded template (a failing `Document(...)` load is an
`error`), the prior invoice files with modification times, the current
date, the random draw, and whether `doc.save` succeeds.  Any raised
exception is caught by the top-level handler and yields `none`. -/
def autoUpdateTrace (template : Except Unit Doc) (files : List (Except Unit Doc × Nat))
    (now : PDate) (r : Nat) (saveOk : Bool) : Option (Text × Doc × RState) :=
  match template with
  | .error _ => none
  | .ok doc =>
    match determineInvoiceDate files now with
    | .error _ => none
    | .ok d =>
      let invNum := invoiceNumberStr r d
      match prevMonthE d with
      | .error _ => none
      | .ok pq =>
        let (doc', st) :=
          rewriteDoc (dateFormat1 d) (dateFormat2 d) invNum (servicePeriodStr d pq.1 pq.2) doc
        if saveOk then some (fileNameFor d, doc', st) else none

/-- The caller-visible outcome: the returned filename (or `None`) and
the output file written by `doc.save` (or nothing). -/
def autoUpdateRun (template : Except Unit Doc) (files : List (Except Unit Doc × Nat))
    (now : PDate) (r : Nat) (saveOk : Bool) : Option Text × Option (Text × Doc) :=
  match autoUpdateTrace template files now r saveOk with
  | none => (none, none)
  | some (fn, doc', _) => (some fn, some (fn, doc'))

/-! ### Derived observations and spec-side renderings -/

/-- Number of log entries for one field: how many regions that field's
substitution changed during the run. -/
def countTag (f : FTag) (l : List FTag) : Nat := (l.filter (fun x => x = f)).length

/-- The `*_updated` flag belonging to a field. -/
def flagOf (f : FTag) (s : RState) : Bool :=
  match f with
  | .d1 => s.f1
  | .d2 => s.f2
  | .inv => s.fi
  | .sp => s.fs

/-- Fires already logged for a field plus one pending fire while its
flag is still down; the rewriter never increases it. -/
def fireMeasure (f : FTag) (s : RState) : Nat :=
  countTag f s.log + (if flagOf f s then 0 else 1)

/-- The financial-year label as the spec words it: `Y-(Y+1 mod 100)`
from April on, `(Y-1)-(Y mod 100)` before, the short part as a
two-digit (zero-padded) year. -/
def specFinYear (y m : Nat) : Text :=
  if 4 ≤ m then natDigits y ++ ['-'] ++ pad2 ((y + 1) % 100)
  else natDigits (y - 1) ++ ['-'] ++ pad2 (y % 100)

/-- The service period as the spec words it: day 7 of the month
preceding the invoice month to day 6 of the invoice month, each as
ordinal day, full month name and year. -/
def specServicePeriod (y m : Nat) : Text :=
  ordinalTxt 7 ++ [' '] ++ monthName (if m = 1 then 12 else m - 1) ++ [' '] ++
    natDigits (if m = 1 then y - 1 else y) ++ " to ".toList ++
    ordinalTxt 6 ++ [' '] ++ monthName m ++ [' '] ++ natDigits y

/-- A prior-document line carrying the label and an ordinal-suffixed
day-month-year date (the year as the four digits the `\d{4}` group
reads). -/
def mkDateLine (d mo y : Nat) : Text :=
  dateLabel ++ [' '] ++ ordinalTxt d ++ [' '] ++ monthName mo ++ [' '] ++ pad4 y

/-- No region of text `t` matches the long-form date, slash date or
service-period pattern. -/
def noMatch3 (t : Text) : Prop :=
  searchSome matchAtD1 t = none ∧ searchSome matchAtD2 t = none ∧ searchSome matchAtSp t = none

/-- A region suitable for an invoice-number-only template: the other
three patterns match neither the region nor its invoice-number
rewrite. -/
def HypC8 (inv t : Text) : Prop := noMatch3 t ∧ noMatch3 (subAll matchAtInv inv t)

/-- A region after such a run: untouched, or invoice-number rewritten. -/
def RelC8 (inv t t' : Text) : Prop := t' = t ∨ t' = subAll matchAtInv inv t

/-- Every textual region of a document: the top-level paragraphs and the
cell paragraphs of every table. -/
def docTexts (doc : Doc) : List Text :=
  doc.paragraphs ++ doc.tables.flatten.flatten.flatten

/-- A region the invoice-number substitution fires on: the `"Invoice No:"`
guard holds, the pattern matches somewhere, and `re.sub` changes the
text. -/
def InvCand (inv t : Text) : Prop :=
  containsSub invLabel t = true ∧ searchSome matchAtInv t ≠ none ∧ subAll matchAtInv inv t ≠ t

/-! ### Character and decimal-rendering lemmas -/

theorem dchar_toNat {k : Nat} (h : k ≤ 9) : (dchar k).toNat = 48 + k := by
  interval_cases k <;> rfl

theorem isDigitCh_dchar {k : Nat} (h : k ≤ 9) : isDigitCh (dchar k) = true := by
  interval_cases k <;> rfl

theorem isSpaceCh_dchar {k : Nat} (h : k ≤ 9) : isSpaceCh (dchar k) = false := by
  interval_cases k <;> rfl

theorem isLetterCh_dchar {k : Nat} (h : k ≤ 9) : isLetterCh (dchar k) = false := by
  interval_cases k <;> rfl

theorem natDigitsF_fuel : ∀ f g n, n < f → n < g → natDigitsF f n = natDigitsF g n := by
  intro f
  induction f with
  | zero => intro g n hf; omega
  | succ f ih =>
    intro g n hf hg
    match g, hg with
    | g + 1, hg =>
      show natDigitsF (f + 1) n = natDigitsF (g + 1) n
      by_cases h : n < 10
      · simp [natDigitsF, h]
      · have h10 : 10 ≤ n := by omega
        have hd : n / 10 < n := Nat.div_lt_self (by omega) (by omega)
        simp only [natDigitsF, if_neg h]
        rw [ih g (n / 10) (by omega) (by omega)]

theorem natDigits_small {n : Nat} (h : n < 10) : natDigits n = [dchar n] := by
  simp [natDigits, natDigitsF, h]

theorem natDigits_step {n : Nat} (h : 10 ≤ n) :
    natDigits n = natDigits (n / 10) ++ [dchar (n % 10)] := by
  have hd : n / 10 < n := Nat.div_lt_self (by omega) (by omega)
  show natDigitsF (n + 1) n = _
  rw [show natDigitsF (n + 1) n = natDigitsF n (n / 10) ++ [dchar (n % 10)] by
    simp [natDigitsF, Nat.not_lt.mpr h]]
  rw [natDigitsF_fuel n (n / 10 + 1) (n / 10) (by omega) (by omega)]
  rfl

theorem natDigits2 {n : Nat} (h1 : 10 ≤ n) (h2 : n ≤ 99) :
    natDigits n = [dchar (n / 10), dchar (n % 10)] := by
  rw [natDigits_step h1, natDigits_small (by omega)]
  rfl

theorem natDigits4 {n : Nat} (h1 : 1000 ≤ n) (h2 : n ≤ 9999) :
    natDigits n = [dchar (n / 1000), dchar (n / 100 % 10), dchar (n / 10 % 10), dchar (n % 10)] := by
  have e2 : n / 10 / 10 = n / 100 := by rw [Nat.div_div_eq_div_mul]
  have e3 : n / 100 / 10 = n / 1000 := by rw [Nat.div_div_eq_div_mul]
  rw [natDigits_step (by omega), natDigits_step (by omega : 10 ≤ n / 10), e2,
    natDigits_step (by omega : 10 ≤ n / 100), e3, natDigits_small (by omega : n / 1000 < 10)]
  simp [e2, e3]

theorem natDigits_eq_pad4 {n : Nat} (h1 : 1000 ≤ n) (h2 : n ≤ 9999) :
    natDigits n = pad4 n := by
  rw [natDigits4 h1 h2]
  have : n / 1000 % 10 = n / 1000 := Nat.mod_eq_of_lt (by omega)
  rw [pad4, this]

theorem natDigits_all_digit : ∀ n, ∀ c ∈ natDigits n, isDigitCh c = true := by
  intro n
  induction n using Nat.strong_induction_on with
  | _ n ih =>
    by_cases h : n < 10
    · rw [natDigits_small h]
      intro c hc
      rw [List.mem_singleton] at hc
      subst hc
      exact isDigitCh_dchar (by omega)
    · rw [natDigits_step (by omega)]
      intro c hc
      rcases List.mem_append.1 hc with hc | hc
      · exact ih (n / 10) (Nat.div_lt_self (by omega) (by omega)) c hc
      · rw [List.mem_singleton] at hc
        subst hc
        exact isDigitCh_dchar (Nat.le_of_lt_succ (Nat.mod_lt n (by omega)))

theorem natDigits_ne_nil (n : Nat) : natDigits n ≠ [] := by
  by_cases h : n < 10
  · rw [natDigits_small h]; simp
  · rw [natDigits_step (by omega)]; simp

theorem pad4_all_digit (n : Nat) : ∀ c ∈ pad4 n, isDigitCh c = true := by
  intro c hc
  simp only [pad4, List.mem_cons, List.mem_singleton, List.not_mem_nil, or_false] at hc
  rcases hc with h | h | h | h <;> subst h <;>
    exact isDigitCh_dchar (Nat.le_of_lt_succ (Nat.mod_lt _ (by omega)))

theorem digitsToNat_pad4 {n : Nat} (h : n ≤ 9999) : digitsToNat (pad4 n) = n := by
  have h1 : (dchar (n / 1000 % 10)).toNat = 48 + n / 1000 % 10 :=
    dchar_toNat (Nat.le_of_lt_succ (Nat.mod_lt _ (by omega)))
  have h2 : (dchar (n / 100 % 10)).toNat = 48 + n / 100 % 10 :=
    dchar_toNat (Nat.le_of_lt_succ (Nat.mod_lt _ (by omega)))
  have h3 : (dchar (n / 10 % 10)).toNat = 48 + n / 10 % 10 :=
    dchar_toNat (Nat.le_of_lt_succ (Nat.mod_lt _ (by omega)))
  have h4 : (dchar (n % 10)).toNat = 48 + n % 10 :=
    dchar_toNat (Nat.le_of_lt_succ (Nat.mod_lt _ (by omega)))
  simp only [digitsToNat, pad4, List.foldl_cons, List.foldl_nil, h1, h2, h3, h4]
  omega

/-! ### Boundary lemmas for the matcher pieces -/

/-- First character of `r` (if any) fails `p`. -/
def headFails (p : Char → Bool) (r : Text) : Prop := ∀ c, r.head? = some c → p c = false

theorem headFails_nil (p : Char → Bool) : headFails p [] := by
  intro c hc
  simp at hc

theorem headFails_cons {p : Char → Bool} {c : Char} {t : Text} (h : p c = false) :
    headFails p (c :: t) := by
  intro e he
  simp at he
  subst he
  exact h

theorem takeWhile_boundary {p : Char → Bool} :
    ∀ (xs r : Text), (∀ c ∈ xs, p c = true) → headFails p r →
      (xs ++ r).takeWhile p = xs ∧ (xs ++ r).dropWhile p = r := by
  intro xs
  induction xs with
  | nil =>
    intro r _ hr
    cases r with
    | nil => simp
    | cons c t =>
      have : p c = false := hr c rfl
      simp [List.takeWhile_cons, List.dropWhile_cons, this]
  | cons a l ih =>
    intro r hx hr
    have ha : p a = true := hx a (by simp)
    have := ih r (fun c hc => hx c (by simp [hc])) hr
    simp [List.takeWhile_cons, List.dropWhile_cons, ha, this.1, this.2]

theorem many1M_app {p : Char → Bool} {xs r : Text} (hne : xs ≠ [])
    (hx : ∀ c ∈ xs, p c = true) (hr : headFails p r) : many1M p (xs ++ r) = some r := by
  have h := takeWhile_boundary xs r hx hr
  simp [many1M, h.1, h.2, hne]

theorem litM_app (xs r : Text) : litM xs (xs ++ r) = some r := by
  have h : xs.isPrefixOf (xs ++ r) = true :=
    List.isPrefixOf_iff_prefix.2 (List.prefix_append xs r)
  simp [litM, h, List.drop_left]

theorem nCharsM_app {p : Char → Bool} {n : Nat} {xs r : Text} (hl : xs.length = n)
    (hx : ∀ c ∈ xs, p c = true) : nCharsM n p (xs ++ r) = some r := by
  subst hl
  have ht : (xs ++ r).take xs.length = xs := List.take_left xs r
  have hd : (xs ++ r).drop xs.length = r := List.drop_left xs r
  simp [nCharsM, ht, hd, List.all_eq_true.2 hx]

theorem containsSub_of_infix {needle hay : Text} (h : needle <:+: hay) :
    containsSub needle hay = true := by
  induction hay with
  | nil =>
    rw [List.infix_nil] at h
    subst h
    rfl
  | cons c t ih =>
    rcases List.infix_cons_iff.1 h with h | h
    · simp [containsSub, List.isPrefixOf_iff_prefix.2 h]
    · simp [containsSub, ih h]

/-! ### Matcher-evaluation lemmas -/

theorem headFails_app {p : Char → Bool} {xs : Text} (r : Text) (hne : xs ≠ [])
    (h : ∀ c ∈ xs, p c = false) : headFails p (xs ++ r) := by
  cases xs with
  | nil => exact absurd rfl hne
  | cons a t => exact headFails_cons (h a (by simp))

theorem headFails_of_mem {p : Char → Bool} {l : Text} (h : ∀ c ∈ l, p c = false) :
    headFails p l := by
  intro c hc
  cases l with
  | nil => simp at hc
  | cons a t =>
    simp at hc
    subst hc
    exact h a (by simp)

theorem isEmpty_false_of_ne_nil {l : List α} (h : l ≠ []) : l.isEmpty = false := by
  cases l with
  | nil => exact absurd rfl h
  | cons a t => rfl

theorem ddG_nondigit {k : Text → Option α} {a : Char} {r : Text} (h : isDigitCh a = false) :
    ddG k (a :: r) = none := by
  cases r <;> simp [ddG, h]

theorem ddG_one {k : Text → Option α} {a : Char} {r : Text} (ha : isDigitCh a = true)
    (hr : headFails isDigitCh r) : ddG k (a :: r) = k r := by
  cases r with
  | nil => simp [ddG, ha]
  | cons b t => simp [ddG, ha, hr b rfl]

theorem ddG_two {k : Text → Option α} {a b : Char} {r : Text} {v : α} (ha : isDigitCh a = true)
    (hb : isDigitCh b = true) (hk : k r = some v) : ddG k (a :: b :: r) = some v := by
  simp [ddG, ha, hb, hk, Option.orElse]

theorem sfx_cases (d : Nat) :
    sfxTxt d = ['t', 'h'] ∨ sfxTxt d = ['s', 't'] ∨ sfxTxt d = ['n', 'd'] ∨
      sfxTxt d = ['r', 'd'] := by
  unfold sfxTxt
  split_ifs <;> simp

theorem suffix2M_sfx (d : Nat) (r : Text) : suffix2M (sfxTxt d ++ r) = some r := by
  rcases sfx_cases d with h | h | h | h <;> rw [h] <;> rfl

theorem sfx_headFails (d : Nat) (r : Text) : headFails isDigitCh (sfxTxt d ++ r) := by
  rcases sfx_cases d with h | h | h | h <;> rw [h] <;> exact headFails_cons rfl

theorem monthName_ne_nil {m : Nat} (h1 : 1 ≤ m) (h2 : m ≤ 12) : monthName m ≠ [] := by
  interval_cases m <;> decide

theorem monthName_letters {m : Nat} (h1 : 1 ≤ m) (h2 : m ≤ 12) :
    ∀ c ∈ monthName m, isLetterCh c = true := by
  interval_cases m <;> decide

theorem monthName_no_space {m : Nat} (h1 : 1 ≤ m) (h2 : m ≤ 12) :
    ∀ c ∈ monthName m, isSpaceCh c = false := by
  interval_cases m <;> decide

theorem monthFromName_monthName {m : Nat} (h1 : 1 ≤ m) (h2 : m ≤ 12) :
    monthFromName (monthName m) = some m := by
  interval_cases m <;> decide

theorem pad4_ne_nil (n : Nat) : pad4 n ≠ [] := by simp [pad4]

theorem pad4_no_space (n : Nat) : ∀ c ∈ pad4 n, isSpaceCh c = false := by
  intro c hc
  simp only [pad4, List.mem_cons, List.mem_singleton, List.not_mem_nil, or_false] at hc
  rcases hc with h | h | h | h <;> subst h <;>
    exact isSpaceCh_dchar (Nat.le_of_lt_succ (Nat.mod_lt _ (by omega)))

theorem searchSome_of_match {m : Text → Option α} {s : Text} {v : α} (h : m s = some v) :
    searchSome m s = some v := by
  cases s <;> simp [searchSome, h]

theorem searchSome_cons_skip {m : Text → Option α} {c : Char} {t : Text}
    (h : m (c :: t) = none) : searchSome m (c :: t) = searchSome m t := by
  simp [searchSome, h]

theorem extCont_app {mo y d : Nat} (hmo1 : 1 ≤ mo) (hmo2 : mo ≤ 12) :
    extCont (sfxTxt d ++ ([' '] ++ (monthName mo ++ ([' '] ++ pad4 y)))) =
      some (monthName mo, pad4 y) := by
  unfold extCont
  rw [suffix2M_sfx]
  rw [Option.some_bind]
  rw [many1M_app (by simp) (by intro c hc; simp at hc; subst hc; rfl)
    (headFails_app _ (monthName_ne_nil hmo1 hmo2) (monthName_no_space hmo1 hmo2))]
  rw [Option.some_bind]
  have hb := @takeWhile_boundary isLetterCh (monthName mo) ([' '] ++ pad4 y)
    (monthName_letters hmo1 hmo2) (headFails_cons rfl)
  simp only [hb.1, hb.2]
  rw [isEmpty_false_of_ne_nil (monthName_ne_nil hmo1 hmo2)]
  simp only [Bool.false_eq_true, if_false]
  rw [many1M_app (by simp) (by intro c hc; simp at hc; subst hc; rfl)
    (headFails_of_mem (pad4_no_space y))]
  rw [Option.some_bind]
  have ht : (pad4 y).take 4 = pad4 y := by simp [pad4]
  rw [ht]
  simp [pad4, List.all_eq_true.2 (pad4_all_digit y)]
  refine ⟨?_, ?_, ?_, ?_⟩ <;>
    exact isDigitCh_dchar (Nat.le_of_lt_succ (Nat.mod_lt _ (by omega)))

theorem matchAtExt_day {d mo y : Nat} (hd1 : 1 ≤ d) (hd2 : d ≤ 99) (hmo1 : 1 ≤ mo)
    (hmo2 : mo ≤ 12) :
    matchAtExt (ordinalTxt d ++ ([' '] ++ (monthName mo ++ ([' '] ++ pad4 y)))) =
      some (monthName mo, pad4 y) := by
  unfold matchAtExt ordinalTxt
  by_cases h : d < 10
  · rw [natDigits_small h]
    rw [show [dchar d] ++ sfxTxt d ++ ([' '] ++ (monthName mo ++ ([' '] ++ pad4 y))) =
      dchar d :: (sfxTxt d ++ ([' '] ++ (monthName mo ++ ([' '] ++ pad4 y)))) by simp]
    rw [ddG_one (isDigitCh_dchar (by omega)) (sfx_headFails d _)]
    exact extCont_app hmo1 hmo2
  · rw [natDigits2 (by omega) hd2]
    rw [show [dchar (d / 10), dchar (d % 10)] ++ sfxTxt d ++
        ([' '] ++ (monthName mo ++ ([' '] ++ pad4 y))) =
      dchar (d / 10) :: dchar (d % 10) ::
        (sfxTxt d ++ ([' '] ++ (monthName mo ++ ([' '] ++ pad4 y)))) by simp]
    exact ddG_two (isDigitCh_dchar (by omega)) (isDigitCh_dchar (by omega))
      (extCont_app hmo1 hmo2)

theorem matchAtExt_nondigit {c : Char} {t : Text} (h : isDigitCh c = false) :
    matchAtExt (c :: t) = none := ddG_nondigit h

theorem extractPara_mkLine {d mo y : Nat} (hd1 : 1 ≤ d) (hd2 : d ≤ 99) (hmo1 : 1 ≤ mo)
    (hmo2 : mo ≤ 12) (hy1 : 1000 ≤ y) (hy2 : y ≤ 9999) :
    extractPara (mkDateLine d mo y) = some ⟨y, mo, 1⟩ := by
  have hlist : mkDateLine d mo y =
      'D' :: 'a' :: 't' :: 'e' :: ':' :: ' ' ::
        (ordinalTxt d ++ ([' '] ++ (monthName mo ++ ([' '] ++ pad4 y)))) := by
    simp [mkDateLine, dateLabel, List.append_assoc]
  have hshape2 : mkDateLine d mo y =
      (dateLabel ++ [' '] ++ natDigits d) ++ (sfxTxt d ++ [' ']) ++
        (monthName mo ++ [' '] ++ pad4 y) := by
    simp [mkDateLine, ordinalTxt, List.append_assoc]
  have hg1 : containsSub dateLabel (mkDateLine d mo y) = true := by
    refine containsSub_of_infix ?_
    rw [mkDateLine]
    exact (List.prefix_append _ _).isInfix
  have hsfx : containsSub (sfxTxt d ++ [' ']) (mkDateLine d mo y) = true := by
    rw [hshape2]
    exact containsSub_of_infix (List.infix_append _ _ _)
  have hg2 : (containsSub "st ".toList (mkDateLine d mo y) ||
      containsSub "nd ".toList (mkDateLine d mo y) ||
      containsSub "rd ".toList (mkDateLine d mo y) ||
      containsSub "th ".toList (mkDateLine d mo y)) = true := by
    rcases sfx_cases d with h | h | h | h <;> rw [h] at hsfx <;> simp at hsfx <;> simp [hsfx]
  have hsearch : searchSome matchAtExt (mkDateLine d mo y) = some (monthName mo, pad4 y) := by
    rw [hlist]
    rw [searchSome_cons_skip (matchAtExt_nondigit (by decide))]
    rw [searchSome_cons_skip (matchAtExt_nondigit (by decide))]
    rw [searchSome_cons_skip (matchAtExt_nondigit (by decide))]
    rw [searchSome_cons_skip (matchAtExt_nondigit (by decide))]
    rw [searchSome_cons_skip (matchAtExt_nondigit (by decide))]
    rw [searchSome_cons_skip (matchAtExt_nondigit (by decide))]
    exact searchSome_of_match (matchAtExt_day hd1 hd2 hmo1 hmo2)
  simp only [extractPara, hg1, hg2, Bool.and_self, Bool.true_and, if_true, hsearch,
    monthFromName_monthName hmo1 hmo2, digitsToNat_pad4 hy2]
  simp [hy1]

theorem extractDoc_first {pre : List Text} {l' : Text} {post : List Text}
    {tbls : List (List (List (List Text)))} {v : PDate}
    (hpre : ∀ p ∈ pre, extractPara p = none) (hl : extractPara l' = some v) :
    extractDateDoc (.ok ⟨pre ++ l' :: post, tbls⟩) = some v := by
  show (pre ++ l' :: post).findSome? extractPara = some v
  induction pre with
  | nil => simp [List.findSome?_cons, hl]
  | cons a t ih =>
    have ha : extractPara a = none := hpre a (by simp)
    simp only [List.cons_append, List.findSome?_cons, ha]
    exact ih (fun p hp => hpre p (by simp [hp]))

theorem determine_single (e : Except Unit Doc) (t : Nat) (now : PDate) :
    determineInvoiceDate [(e, t)] now =
      match extractDateDoc e with
      | some last => addMonthE last
      | none => .ok ⟨now.year, now.month, 1⟩ := rfl

/-! ### Claims C1, C4, C6: the Date/Sequence Deriver -/

/-- Shared core for C1 and C4: with a single prior file whose first
extractable paragraph is `mkDateLine d mo y`, the deriver advances to
the month after (y, mo), day 1. -/
theorem determine_mkLine (d mo y : Nat) (pre post : List Text)
    (tbls : List (List (List (List Text)))) (t : Nat) (now : PDate)
    (hd1 : 1 ≤ d) (hd2 : d ≤ 99) (hmo1 : 1 ≤ mo) (hmo2 : mo ≤ 12) (hy1 : 1000 ≤ y)
    (hy2 : y ≤ 9999) (hover : ¬(mo = 12 ∧ y = 9999))
    (hpre : ∀ p ∈ pre, extractPara p = none) :
    determineInvoiceDate [(Except.ok ⟨pre ++ mkDateLine d mo y :: post, tbls⟩, t)] now =
      .ok (if mo = 12 then ⟨y + 1, 1, 1⟩ else ⟨y, mo + 1, 1⟩) := by
  rw [determine_single]
  rw [extractDoc_first hpre (extractPara_mkLine hd1 hd2 hmo1 hmo2 hy1 hy2)]
  show addMonthE ⟨y, mo, 1⟩ = _
  unfold addMonthE
  by_cases h : mo = 12
  · have : y + 1 ≤ 9999 := by
      rcases Nat.lt_or_ge y 9999 with h' | h'
      · omega
      · exact absurd ⟨h, by omega⟩ hover
    simp [h, this]
  · simp [h]

/-- C1 (amended): a prior document whose first extractable line is
`Date: <day><sfx> <Month> <4-digit year>` makes the deriver return
exactly one calendar month after (Y, M) anchored to day 1, whatever
day-of-month the line carried — provided the captured year's value is
at least 1000 (smaller years fail `strptime`'s four-digit `%Y`
re-validation of `f"1 {month} {int(year)}"` and trigger the
current-date fallback instead) and (M, Y) is not December 9999, where
the one-month advance leaves `datetime`'s range and the deriver raises
instead of returning. -/
theorem c1_deriver_next_month (d mo y : Nat) (pre post : List Text)
    (tbls : List (List (List (List Text)))) (t : Nat) (now : PDate)
    (hd1 : 1 ≤ d) (hd2 : d ≤ 99) (hmo1 : 1 ≤ mo) (hmo2 : mo ≤ 12) (hy1 : 1000 ≤ y)
    (hy2 : y ≤ 9999) (hover : ¬(mo = 12 ∧ y = 9999))
    (hpre : ∀ p ∈ pre, extractPara p = none) :
    determineInvoiceDate [(Except.ok ⟨pre ++ mkDateLine d mo y :: post, tbls⟩, t)] now =
      .ok (if mo = 12 then ⟨y + 1, 1, 1⟩ else ⟨y, mo + 1, 1⟩) :=
  determine_mkLine d mo y pre post tbls t now hd1 hd2 hmo1 hmo2 hy1 hy2 hover hpre

/-- C1 counterexample, both edges of the claim.  December 9999: the
deriver does not return the next month — the advance to year 10000
raises (modelled as `Except.error`), so no `InvoiceDate` is produced.
A captured year below 1000 (here the four digits `0005`): `int` strips
the leading zeros, `strptime("%d %B %Y")` rejects `1 March 5`, and the
deriver falls back to the current date (October 2026) instead of
returning April of year 5. -/
theorem c1_edge_years_cex :
    determineInvoiceDate [(Except.ok ⟨[mkDateLine 5 12 9999], []⟩, 0)] ⟨2026, 10, 12⟩ =
      Except.error () ∧
    (Except.error () : Except Unit PDate) ≠ Except.ok ⟨10000, 1, 1⟩ ∧
    determineInvoiceDate [(Except.ok ⟨["Date: 5th March 0005".toList], []⟩, 0)] ⟨2026, 10, 12⟩ =
      Except.ok ⟨2026, 10, 1⟩ ∧
    (⟨2026, 10, 1⟩ : PDate) ≠ ⟨5, 4, 1⟩ := by
  exact ⟨by decide, by decide, by decide, by decide⟩

/-- C1 witness: a concrete March 2025 prior line (day 15) advances to
1 April 2025. -/
theorem c1_deriver_next_month_witness :
    (1 ≤ 15 ∧ 15 ≤ 99 ∧ 1 ≤ 3 ∧ 3 ≤ 12 ∧ 1000 ≤ 2025 ∧ 2025 ≤ 9999 ∧
      ¬(3 = 12 ∧ 2025 = 9999)) ∧
    determineInvoiceDate [(Except.ok ⟨[] ++ mkDateLine 15 3 2025 :: [], []⟩, 7)] ⟨2026, 1, 2⟩ =
      .ok (if 3 = 12 then ⟨2025 + 1, 1, 1⟩ else ⟨2025, 3 + 1, 1⟩) :=
  ⟨by decide,
    c1_deriver_next_month 15 3 2025 [] [] [] 7 ⟨2026, 1, 2⟩ (by decide) (by decide) (by decide)
      (by decide) (by decide) (by decide) (by decide) (by simp)⟩

/-- C4 (amended): feeding an output document back as the latest prior
invoice advances the date by one month from the rewritten long-form
`Date:` line — for any modification time — provided that line is the
first paragraph the extractor accepts (no earlier paragraph extracts,
and the line itself starts with the written date, e.g. is exactly
`Date: 1st <Month> <Year>`), the year is four digits, and the written
month is not December 9999. -/
theorem c4_round_trip (y mo : Nat) (pre post : List Text)
    (tbls : List (List (List (List Text)))) (t : Nat) (now : PDate)
    (hmo1 : 1 ≤ mo) (hmo2 : mo ≤ 12) (hy1 : 1000 ≤ y) (hy2 : y ≤ 9999)
    (hover : ¬(mo = 12 ∧ y = 9999)) (hpre : ∀ p ∈ pre, extractPara p = none) :
    determineInvoiceDate
        [(Except.ok ⟨pre ++ (dateLabel ++ [' '] ++ dateFormat1 ⟨y, mo, 1⟩) :: post, tbls⟩, t)]
        now =
      .ok (if mo = 12 then ⟨y + 1, 1, 1⟩ else ⟨y, mo + 1, 1⟩) := by
  have hline : dateLabel ++ [' '] ++ dateFormat1 ⟨y, mo, 1⟩ = mkDateLine 1 mo y := by
    show dateLabel ++ [' '] ++
        (ordinalTxt (PDate.day ⟨y, mo, 1⟩) ++ [' '] ++ monthName (PDate.month ⟨y, mo, 1⟩) ++
          [' '] ++ natDigits (PDate.year ⟨y, mo, 1⟩)) = _
    rw [show PDate.day ⟨y, mo, 1⟩ = 1 from rfl, show PDate.month ⟨y, mo, 1⟩ = mo from rfl,
      show PDate.year ⟨y, mo, 1⟩ = y from rfl, natDigits_eq_pad4 hy1 hy2]
    simp [mkDateLine, List.append_assoc]
  rw [hline]
  exact determine_mkLine 1 mo y pre post tbls t now (by decide) (by decide) hmo1 hmo2
    (by omega) hy2 hover hpre

/-- C4 counterexample: a template whose `Date:` paragraph starts with an
unrelated ordinal date.  The run rewrites the long-form date to
`1st July 2025`, but feeding the output back extracts the unrelated
`3rd January 2019` (the extractor's first match) and derives
1 February 2019, not one month after the written July 2025 — for any
modification time, here 99. -/
theorem c4_round_trip_cex :
    autoUpdateTrace
        (Except.ok ⟨["From 3rd January 2019, Date: 1st February 2025".toList], []⟩)
        [] ⟨2025, 7, 15⟩ 1234 true =
      some ("invoice_july_2025.docx".toList,
        ⟨["From 3rd January 2019, Date: 1st July 2025".toList], []⟩,
        ⟨true, false, false, false, [FTag.d1]⟩) ∧
    determineInvoiceDate
        [(Except.ok ⟨["From 3rd January 2019, Date: 1st July 2025".toList], []⟩, 99)]
        ⟨2026, 1, 1⟩ =
      .ok ⟨2019, 2, 1⟩ ∧
    (⟨2019, 2, 1⟩ : PDate) ≠ ⟨2025, 8, 1⟩ :=
  ⟨by decide, by decide, by decide⟩

/-- C4 witness: an output line `Date: 1st July 2025` fed back (with
arbitrary modification time 42) derives 1 August 2025. -/
theorem c4_round_trip_witness :
    (1 ≤ 7 ∧ 7 ≤ 12 ∧ 1000 ≤ 2025 ∧ 2025 ≤ 9999 ∧ ¬(7 = 12 ∧ 2025 = 9999)) ∧
    determineInvoiceDate
        [(Except.ok ⟨[] ++ (dateLabel ++ [' '] ++ dateFormat1 ⟨2025, 7, 1⟩) :: [], []⟩, 42)]
        ⟨2026, 2, 3⟩ =
      .ok (if 7 = 12 then ⟨2025 + 1, 1, 1⟩ else ⟨2025, 7 + 1, 1⟩) :=
  ⟨by decide,
    c4_round_trip 2025 7 [] [] [] 42 ⟨2026, 2, 3⟩ (by decide) (by decide) (by decide)
      (by decide) (by decide) (by simp)⟩

/-- C6: when no prior invoice file exists, or the chosen latest file
yields no extractable date (unreadable file, no matching line, or an
unparseable match), the derived invoice date is the current date with
day forced to 1. -/
theorem c6_fallback_current_date (files : List (Except Unit Doc × Nat)) (now : PDate)
    (h : findLatest files = none ∨
      ∃ e, findLatest files = some e ∧ extractDateDoc e = none) :
    determineInvoiceDate files now = .ok ⟨now.year, now.month, 1⟩ := by
  unfold determineInvoiceDate
  rcases h with h | ⟨e, he, hx⟩
  · rw [h]
  · rw [he]
    simp [hx]

/-- C6 witness: a single unreadable prior file falls back to the
current month (12 October 2026 gives 1 October 2026). -/
theorem c6_fallback_current_date_witness :
    (findLatest [((Except.error () : Except Unit Doc), 3)] = none ∨
      ∃ e, findLatest [((Except.error () : Except Unit Doc), 3)] = some e ∧
        extractDateDoc e = none) ∧
    determineInvoiceDate [((Except.error () : Except Unit Doc), 3)] ⟨2026, 10, 12⟩ =
      .ok ⟨2026, 10, 1⟩ :=
  ⟨Or.inr ⟨Except.error (), rfl, rfl⟩,
    c6_fallback_current_date _ ⟨2026, 10, 12⟩ (Or.inr ⟨Except.error (), rfl, rfl⟩)⟩

/-- C7: the update routine is total towards its caller — it either
fails wholly, returning `None` with no output file written (in
particular when the template load raises or the save raises), or
succeeds, returning the generated filename with the document saved
under exactly that name.  No exception escapes: every raise inside the
body is absorbed by the top-level handler. -/
theorem c7_never_raises (template : Except Unit Doc) (files : List (Except Unit Doc × Nat))
    (now : PDate) (r : Nat) (b : Bool) :
    autoUpdateRun (Except.error ()) files now r b = (none, none) ∧
    autoUpdateRun template files now r false = (none, none) ∧
    (autoUpdateRun template files now r b = (none, none) ∨
      ∃ fn d', autoUpdateRun template files now r b = (some fn, some (fn, d'))) := by
  refine ⟨rfl, ?_, ?_⟩
  · unfold autoUpdateRun autoUpdateTrace
    rcases template with e | doc
    · rfl
    · rcases hD : determineInvoiceDate files now with e | d
      · simp [hD]
      · rcases hP : prevMonthE d with e | pq
        · simp [hD, hP]
        · simp [hD, hP]
  · unfold autoUpdateRun autoUpdateTrace
    rcases template with e | doc
    · exact Or.inl rfl
    · rcases hD : determineInvoiceDate files now with e | d
      · exact Or.inl (by simp [hD])
      · rcases hP : prevMonthE d with e | pq
        · exact Or.inl (by simp [hD, hP])
        · cases b with
          | false => exact Or.inl (by simp [hD, hP])
          | true =>
            refine Or.inr ⟨fileNameFor d, ?_⟩
            simp [hD, hP]

/-! ### Claim C2: the financial-year label -/

theorem lastTwo_app2 (A : Text) (a b : Char) : lastTwo (A ++ [a, b]) = [a, b] := by
  unfold lastTwo
  have h : (A ++ [a, b]).length - 2 = A.length := by simp
  rw [h, List.drop_left]

theorem lastTwo_natDigits {n : Nat} (h : 10 ≤ n) :
    lastTwo (natDigits n) = [dchar (n / 10 % 10), dchar (n % 10)] := by
  by_cases h2 : n < 100
  · rw [natDigits2 h (by omega)]
    have e : n / 10 % 10 = n / 10 := Nat.mod_eq_of_lt (by omega)
    rw [e]
    rfl
  · have e2 : n / 10 / 10 = n / 100 := by rw [Nat.div_div_eq_div_mul]
    rw [natDigits_step (by omega), natDigits_step (by omega : 10 ≤ n / 10)]
    rw [List.append_assoc]
    exact lastTwo_app2 _ _ _

theorem lastTwo_pad2 {n : Nat} (h : 10 ≤ n) : lastTwo (natDigits n) = pad2 (n % 100) := by
  rw [lastTwo_natDigits h]
  by_cases h2 : n % 100 < 10
  · have h10 : n / 10 % 10 = 0 := by omega
    have hm : n % 100 = n % 10 := by omega
    rw [pad2, if_pos h2, natDigits_small (by omega), h10, hm]
    rfl
  · have h3 : 10 ≤ n % 100 := by omega
    rw [pad2, if_neg h2, natDigits2 h3 (by omega)]
    have ha : n % 100 / 10 = n / 10 % 10 := by omega
    have hb : n % 100 % 10 = n % 10 := by omega
    rw [ha, hb]

/-- C2 (amended): for every date with year at least 10 the label equals
the spec's `Y-(Y+1 mod 100)` (months 4–12) or `(Y-1)-(Y mod 100)`
(months 1–3) with the short year zero-padded to two digits, and the
spec's examples hold: March 2025 gives 2024-25 and April 2025 gives
2025-26.  (For years 0–9 the code renders the short year with a single
character instead.) -/
theorem c2_financial_year (y m dd : Nat) (hy : 10 ≤ y) (h1 : 1 ≤ m) (h2 : m ≤ 12) :
    getFinancialYear ⟨y, m, dd⟩ = specFinYear y m ∧
    getFinancialYear ⟨2025, 3, 1⟩ = "2024-25".toList ∧
    getFinancialYear ⟨2025, 4, 1⟩ = "2025-26".toList := by
  refine ⟨?_, by decide, by decide⟩
  show (if 4 ≤ m then natDigits y ++ ['-'] ++ lastTwo (natDigits (y + 1))
      else natDigits (y - 1) ++ ['-'] ++ lastTwo (natDigits y)) = specFinYear y m
  unfold specFinYear
  by_cases h : 4 ≤ m
  · rw [if_pos h, if_pos h, lastTwo_pad2 (by omega : 10 ≤ y + 1)]
  · rw [if_neg h, if_neg h, lastTwo_pad2 hy]

/-- C2 counterexample: the claim quantifies over every date, but at
year 5 (a valid `datetime` year) the code writes `5-6` where the
spec's `(Y+1 mod 100)` two-digit short form is `06`. -/
theorem c2_financial_year_cex :
    getFinancialYear ⟨5, 4, 1⟩ = "5-6".toList ∧
    specFinYear 5 4 = "5-06".toList ∧
    getFinancialYear ⟨5, 4, 1⟩ ≠ specFinYear 5 4 :=
  ⟨by decide, by decide, by decide⟩

/-- C2 witness: May 2025. -/
theorem c2_financial_year_witness :
    (10 ≤ 2025 ∧ 1 ≤ 5 ∧ 5 ≤ 12) ∧
    (getFinancialYear ⟨2025, 5, 1⟩ = specFinYear 2025 5 ∧
      getFinancialYear ⟨2025, 3, 1⟩ = "2024-25".toList ∧
      getFinancialYear ⟨2025, 4, 1⟩ = "2025-26".toList) :=
  ⟨by decide, c2_financial_year 2025 5 1 (by decide) (by decide) (by decide)⟩

/-! ### Claim C3: the service period -/

/-- C3: for every invoice date (any day-of-month; month preceded by a
valid month, which every derivable invoice date satisfies) the service
period runs from day 7 of the preceding calendar month to day 6 of the
invoice month, rendered as ordinal day, full month name and year; in
particular 1 March 2025 renders as
`7th February 2025 to 6th March 2025`. -/
theorem c3_service_period (y m dd : Nat) (h1 : 1 ≤ m) (h2 : m ≤ 12) (h3 : m = 1 → 2 ≤ y) :
    prevMonthE ⟨y, m, dd⟩ = .ok (if m = 1 then y - 1 else y, if m = 1 then 12 else m - 1) ∧
    servicePeriodStr ⟨y, m, dd⟩ (if m = 1 then y - 1 else y) (if m = 1 then 12 else m - 1) =
      specServicePeriod y m ∧
    servicePeriodStr ⟨2025, 3, 1⟩ 2025 2 = "7th February 2025 to 6th March 2025".toList := by
  refine ⟨?_, ?_, by decide⟩
  · unfold prevMonthE
    by_cases h : m = 1
    · simp [h, h3 h]
    · simp [h]
  · rfl

/-- C3 witness: March 2025 invoice dates. -/
theorem c3_service_period_witness :
    (1 ≤ 3 ∧ 3 ≤ 12 ∧ ((3 : Nat) = 1 → 2 ≤ 2025)) ∧
    (prevMonthE ⟨2025, 3, 1⟩ =
        .ok (if (3 : Nat) = 1 then 2025 - 1 else 2025, if (3 : Nat) = 1 then 12 else 3 - 1) ∧
      servicePeriodStr ⟨2025, 3, 1⟩ (if (3 : Nat) = 1 then 2025 - 1 else 2025)
          (if (3 : Nat) = 1 then 12 else 3 - 1) = specServicePeriod 2025 3 ∧
      servicePeriodStr ⟨2025, 3, 1⟩ 2025 2 = "7th February 2025 to 6th March 2025".toList) :=
  ⟨by decide, c3_service_period 2025 3 1 (by decide) (by decide) (by decide)⟩

/-! ### Claims C9, C10: the generated field strings match their own patterns -/

theorem digit_not_space {c : Char} (h : isDigitCh c = true) : isSpaceCh c = false := by
  by_contra hc
  have hc' : isSpaceCh c = true := by revert hc; cases isSpaceCh c <;> simp
  simp only [isSpaceCh, Bool.or_eq_true, decide_eq_true_eq] at hc'
  rcases hc' with ((((h1 | h1) | h1) | h1) | h1) | h1 <;> subst h1 <;> exact absurd h (by decide)

theorem nCharsM2_pair {a b : Char} (ha : isDigitCh a = true) (hb : isDigitCh b = true) :
    nCharsM 2 isDigitCh [a, b] = some [] := by
  have h := @nCharsM_app isDigitCh 2 [a, b] [] rfl
    (by intro c hc; simp at hc; rcases hc with h | h <;> subst h <;> assumption)
  simpa using h

theorem nCharsM4_pad4 (y : Nat) : nCharsM 4 isDigitCh (pad4 y) = some [] := by
  have h := @nCharsM_app isDigitCh 4 (pad4 y) [] (by simp [pad4]) (pad4_all_digit y)
  simpa using h

theorem ddG_ordinal {e : Nat} {rest : Text} {k : Text → Option α} {v : α} (he1 : 1 ≤ e)
    (he2 : e ≤ 99) (hk : k (sfxTxt e ++ rest) = some v) :
    ddG k (ordinalTxt e ++ rest) = some v := by
  unfold ordinalTxt
  by_cases h : e < 10
  · rw [natDigits_small h]
    rw [show ([dchar e] ++ sfxTxt e) ++ rest = dchar e :: (sfxTxt e ++ rest) by simp]
    rw [ddG_one (isDigitCh_dchar (by omega)) (sfx_headFails e rest)]
    exact hk
  · rw [natDigits2 (by omega) he2]
    rw [show ([dchar (e / 10), dchar (e % 10)] ++ sfxTxt e) ++ rest =
      dchar (e / 10) :: dchar (e % 10) :: (sfxTxt e ++ rest) by simp]
    exact ddG_two (isDigitCh_dchar (by omega))
      (isDigitCh_dchar (Nat.le_of_lt_succ (Nat.mod_lt _ (by omega)))) hk

theorem d1Cont_app {d mo y : Nat} (hmo1 : 1 ≤ mo) (hmo2 : mo ≤ 12) :
    d1Cont (sfxTxt d ++ ([' '] ++ (monthName mo ++ ([' '] ++ pad4 y)))) = some [] := by
  unfold d1Cont
  rw [suffix2M_sfx, Option.some_bind]
  rw [many1M_app (by simp) (by intro c hc; simp at hc; subst hc; rfl)
    (headFails_app _ (monthName_ne_nil hmo1 hmo2) (monthName_no_space hmo1 hmo2))]
  rw [Option.some_bind]
  rw [many1M_app (monthName_ne_nil hmo1 hmo2) (monthName_letters hmo1 hmo2)
    (headFails_app (pad4 y) (by simp) (by decide))]
  rw [Option.some_bind]
  rw [many1M_app (by simp) (by intro c hc; simp at hc; subst hc; rfl)
    (headFails_of_mem (pad4_no_space y))]
  rw [Option.some_bind]
  exact nCharsM4_pad4 y

theorem spCont2_app {d mo y : Nat} (hmo1 : 1 ≤ mo) (hmo2 : mo ≤ 12) :
    spCont2 (sfxTxt d ++ ([' '] ++ (monthName mo ++ ([' '] ++ pad4 y)))) = some [] := by
  unfold spCont2
  rw [suffix2M_sfx, Option.some_bind]
  rw [many1M_app (by simp) (by intro c hc; simp at hc; subst hc; rfl)
    (headFails_app _ (monthName_ne_nil hmo1 hmo2) (monthName_no_space hmo1 hmo2))]
  rw [Option.some_bind]
  rw [many1M_app (monthName_ne_nil hmo1 hmo2) (monthName_letters hmo1 hmo2)
    (headFails_app (pad4 y) (by simp) (by decide))]
  rw [Option.some_bind]
  rw [many1M_app (by simp) (by intro c hc; simp at hc; subst hc; rfl)
    (headFails_of_mem (pad4_no_space y))]
  rw [Option.some_bind]
  exact nCharsM4_pad4 y

theorem spCont1_app {a e py pm y m : Nat} (hpm1 : 1 ≤ pm) (hpm2 : pm ≤ 12) (hm1 : 1 ≤ m)
    (hm2 : m ≤ 12) (he1 : 1 ≤ e) (he2 : e ≤ 99) :
    spCont1 (sfxTxt a ++ ([' '] ++ (monthName pm ++ ([' '] ++ (pad4 py ++ ([' '] ++
      (['t', 'o'] ++ ([' '] ++ (ordinalTxt e ++ ([' '] ++ (monthName m ++
        ([' '] ++ pad4 y)))))))))))) = some [] := by
  unfold spCont1
  rw [suffix2M_sfx, Option.some_bind]
  rw [many1M_app (by simp) (by intro c hc; simp at hc; subst hc; rfl)
    (headFails_app _ (monthName_ne_nil hpm1 hpm2) (monthName_no_space hpm1 hpm2))]
  rw [Option.some_bind]
  rw [many1M_app (monthName_ne_nil hpm1 hpm2) (monthName_letters hpm1 hpm2)
    (headFails_app _ (by simp) (by decide))]
  rw [Option.some_bind]
  rw [many1M_app (by simp) (by intro c hc; simp at hc; subst hc; rfl)
    (headFails_app _ (by simp [pad4]) (pad4_no_space py))]
  rw [Option.some_bind]
  rw [nCharsM_app (by simp [pad4]) (pad4_all_digit py), Option.some_bind]
  rw [many1M_app (by simp) (by intro c hc; simp at hc; subst hc; rfl)
    (headFails_app _ (by simp) (by decide))]
  rw [Option.some_bind]
  rw [litM_app, Option.some_bind]
  have hord : headFails isSpaceCh (ordinalTxt e ++ ([' '] ++ (monthName m ++ ([' '] ++ pad4 y)))) := by
    rw [ordinalTxt, List.append_assoc]
    exact headFails_app _ (natDigits_ne_nil e)
      (fun c hc => digit_not_space (natDigits_all_digit e c hc))
  rw [many1M_app (by simp) (by intro c hc; simp at hc; subst hc; rfl) hord]
  rw [Option.some_bind]
  exact ddG_ordinal he1 he2 (spCont2_app hm1 hm2)

theorem nCharsM2_pad2 {m : Nat} (hm : m ≤ 99) (r : Text) :
    nCharsM 2 isDigitCh (pad2 m ++ r) = some r := by
  by_cases h : m < 10
  · rw [pad2, if_pos h, natDigits_small h]
    exact nCharsM_app rfl
      (by intro c hc; simp at hc
          rcases hc with h' | h' <;> subst h'
          · rfl
          · exact isDigitCh_dchar (by omega))
  · rw [pad2, if_neg h, natDigits2 (by omega) hm]
    exact nCharsM_app rfl
      (by intro c hc; simp at hc
          rcases hc with h' | h' <;> subst h' <;>
            exact isDigitCh_dchar (by omega))

theorem matchAtD1_line {d mo y : Nat} (hd1 : 1 ≤ d) (hd2 : d ≤ 99) (hmo1 : 1 ≤ mo)
    (hmo2 : mo ≤ 12) : matchAtD1 (mkDateLine d mo y) = some [] := by
  have hshape : mkDateLine d mo y =
      dateLabel ++ ([' '] ++ (ordinalTxt d ++ ([' '] ++ (monthName mo ++ ([' '] ++ pad4 y))))) := by
    simp [mkDateLine, List.append_assoc]
  have hord : headFails isSpaceCh (ordinalTxt d ++ ([' '] ++ (monthName mo ++ ([' '] ++ pad4 y)))) := by
    rw [ordinalTxt, List.append_assoc]
    exact headFails_app _ (natDigits_ne_nil d)
      (fun c hc => digit_not_space (natDigits_all_digit d c hc))
  show (litM dateLabel (mkDateLine d mo y)).bind
      (fun s1 => (many1M isSpaceCh s1).bind (ddG d1Cont)) = some []
  rw [hshape, litM_app, Option.some_bind]
  rw [many1M_app (by simp) (by intro c hc; simp at hc; subst hc; rfl) hord]
  rw [Option.some_bind]
  exact ddG_ordinal hd1 hd2 (d1Cont_app hmo1 hmo2)

theorem matchAtD2_fmt {y m : Nat} (hm : m ≤ 99) (hy1 : 1000 ≤ y) (hy2 : y ≤ 9999) :
    matchAtD2 (dateFormat2 ⟨y, m, 1⟩) = some [] := by
  have hshape : dateFormat2 ⟨y, m, 1⟩ =
      '1' :: (['/'] ++ (pad2 m ++ (['/'] ++ pad4 y))) := by
    show natDigits 1 ++ ['/'] ++ pad2 m ++ ['/'] ++ natDigits y = _
    rw [natDigits_eq_pad4 hy1 hy2, show natDigits 1 = ['1'] from rfl]
    simp [List.append_assoc]
  show ddG d2Cont (dateFormat2 ⟨y, m, 1⟩) = some []
  rw [hshape, ddG_one (by decide) (headFails_app _ (by simp) (by decide))]
  show (litM ['/'] _).bind _ = some []
  rw [litM_app, Option.some_bind]
  rw [nCharsM2_pad2 hm, Option.some_bind]
  rw [litM_app, Option.some_bind]
  exact nCharsM4_pad4 y

theorem matchAtInv_full {r y m dd : Nat} (hr1 : 1000 ≤ r) (hr2 : r ≤ 9999)
    (hy1 : 1001 ≤ y) (hy2 : y ≤ 9999) :
    matchAtInv (invoiceNumberStr r ⟨y, m, dd⟩) = some [] := by
  have hshape : invoiceNumberStr r ⟨y, m, dd⟩ =
      ['I', 'N'] ++ (natDigits r ++ (['/'] ++ getFinancialYear ⟨y, m, dd⟩)) := by
    simp [invoiceNumberStr, List.append_assoc]
  show (litM ['I', 'N'] (invoiceNumberStr r ⟨y, m, dd⟩)).bind _ = some []
  rw [hshape, litM_app, Option.some_bind]
  rw [natDigits_eq_pad4 hr1 hr2]
  rw [nCharsM_app (by simp [pad4]) (pad4_all_digit r), Option.some_bind]
  rw [litM_app, Option.some_bind]
  show (nCharsM 4 isDigitCh (if 4 ≤ m then
      natDigits y ++ ['-'] ++ lastTwo (natDigits (y + 1))
    else natDigits (y - 1) ++ ['-'] ++ lastTwo (natDigits y))).bind _ = some []
  by_cases h : 4 ≤ m
  · rw [if_pos h, natDigits_eq_pad4 (by omega) hy2, lastTwo_natDigits (by omega : 10 ≤ y + 1)]
    rw [show pad4 y ++ ['-'] ++ [dchar ((y + 1) / 10 % 10), dchar ((y + 1) % 10)] =
      pad4 y ++ (['-'] ++ [dchar ((y + 1) / 10 % 10), dchar ((y + 1) % 10)]) by
        simp [List.append_assoc]]
    rw [nCharsM_app (by simp [pad4]) (pad4_all_digit y), Option.some_bind]
    rw [litM_app, Option.some_bind]
    exact nCharsM2_pair (isDigitCh_dchar (Nat.le_of_lt_succ (Nat.mod_lt _ (by omega))))
      (isDigitCh_dchar (Nat.le_of_lt_succ (Nat.mod_lt _ (by omega))))
  · rw [if_neg h, natDigits_eq_pad4 (by omega) (by omega), lastTwo_natDigits (by omega : 10 ≤ y)]
    rw [show pad4 (y - 1) ++ ['-'] ++ [dchar (y / 10 % 10), dchar (y % 10)] =
      pad4 (y - 1) ++ (['-'] ++ [dchar (y / 10 % 10), dchar (y % 10)]) by
        simp [List.append_assoc]]
    rw [nCharsM_app (by simp [pad4]) (pad4_all_digit (y - 1)), Option.some_bind]
    rw [litM_app, Option.some_bind]
    exact nCharsM2_pair (isDigitCh_dchar (Nat.le_of_lt_succ (Nat.mod_lt _ (by omega))))
      (isDigitCh_dchar (Nat.le_of_lt_succ (Nat.mod_lt _ (by omega))))

theorem matchAtSp_service {py pm y m dd : Nat} (hpm1 : 1 ≤ pm) (hpm2 : pm ≤ 12)
    (hm1 : 1 ≤ m) (hm2 : m ≤ 12) (hpy1 : 1000 ≤ py) (hpy2 : py ≤ 9999)
    (hy1 : 1000 ≤ y) (hy2 : y ≤ 9999) :
    matchAtSp (servicePeriodStr ⟨y, m, dd⟩ py pm) = some [] := by
  have hshape : servicePeriodStr ⟨y, m, dd⟩ py pm =
      ordinalTxt 7 ++ ([' '] ++ (monthName pm ++ ([' '] ++ (pad4 py ++ ([' '] ++
        (['t', 'o'] ++ ([' '] ++ (ordinalTxt 6 ++ ([' '] ++ (monthName m ++
          ([' '] ++ pad4 y))))))))))) := by
    show ordinalTxt 7 ++ [' '] ++ monthName pm ++ [' '] ++ natDigits py ++ " to ".toList ++
        ordinalTxt 6 ++ [' '] ++ monthName m ++ [' '] ++ natDigits y = _
    rw [natDigits_eq_pad4 hpy1 hpy2, natDigits_eq_pad4 hy1 hy2]
    simp only [List.append_assoc]
    rfl
  show ddG spCont1 (servicePeriodStr ⟨y, m, dd⟩ py pm) = some []
  rw [hshape]
  exact ddG_ordinal (by decide) (by decide) (spCont1_app hpm1 hpm2 hm1 hm2 (by decide) (by decide))

/-- C9 (amended): for every run whose derived invoice year Y satisfies
1001 ≤ Y ≤ 9999 (every realistic date) and every random draw in
[1000, 9999], the generated invoice number is `IN` + the four digits of
the draw + `/` + the financial-year label, and the whole string is one
exact match of `IN\d{4}/\d{4}-\d{2}`.  (The reachable exception is a
derived invoice year of 1000 in months 1–3, whose financial-year label
`999-00` has a three-digit first part, so the pattern fails.) -/
theorem c9_invoice_number_format (r y m dd : Nat) (hr1 : 1000 ≤ r) (hr2 : r ≤ 9999)
    (hy1 : 1001 ≤ y) (hy2 : y ≤ 9999) :
    invoiceNumberStr r ⟨y, m, dd⟩ =
      ['I', 'N'] ++ natDigits r ++ ['/'] ++ getFinancialYear ⟨y, m, dd⟩ ∧
    (natDigits r).length = 4 ∧
    matchAtInv (invoiceNumberStr r ⟨y, m, dd⟩) = some [] := by
  refine ⟨rfl, ?_, matchAtInv_full hr1 hr2 hy1 hy2⟩
  rw [natDigits_eq_pad4 hr1 hr2]
  simp [pad4]

/-- C9 counterexample: a run is reachable whose invoice date is
February of year 1000 — the prior document's line `Date: 1st January
1000` parses (`1 January 1000` renders with four digits) and the
deriver advances one month.  Its financial-year label is `999-00`
(`str(999)` has three digits), so the invoice number `IN1234/999-00`
contains no match of `IN\d{4}/\d{4}-\d{2}`, let alone being one
exactly. -/
theorem c9_invoice_number_format_cex :
    determineInvoiceDate [(Except.ok ⟨["Date: 1st January 1000".toList], []⟩, 0)]
        ⟨2026, 10, 12⟩ = .ok ⟨1000, 2, 1⟩ ∧
    invoiceNumberStr 1234 ⟨1000, 2, 1⟩ = "IN1234/999-00".toList ∧
    searchSome matchAtInv (invoiceNumberStr 1234 ⟨1000, 2, 1⟩) = none :=
  ⟨by decide, by decide, by decide⟩

/-- C9 witness: draw 1234 in July 2025 gives a full match. -/
theorem c9_invoice_number_format_witness :
    (1000 ≤ 1234 ∧ 1234 ≤ 9999 ∧ 1001 ≤ 2025 ∧ 2025 ≤ 9999) ∧
    (invoiceNumberStr 1234 ⟨2025, 7, 1⟩ =
        ['I', 'N'] ++ natDigits 1234 ++ ['/'] ++ getFinancialYear ⟨2025, 7, 1⟩ ∧
      (natDigits 1234).length = 4 ∧
      matchAtInv (invoiceNumberStr 1234 ⟨2025, 7, 1⟩) = some []) :=
  ⟨by decide,
    c9_invoice_number_format 1234 2025 7 1 (by decide) (by decide) (by decide) (by decide)⟩

/-- C10 (amended): for every derived invoice date with year in
1001..9999 and draw in [1000, 9999], each of the four replacement
strings the rewriter writes — `Date: ` + long-form date, slash date,
invoice number and service period — contains a region matching its own
field's search pattern, so the next run can find each updated field.
(The reachable exception is a derived invoice year of 1000 in months
1–3, whose invoice number carries the short label `999-00`, see the
counterexample.) -/
theorem c10_replacements_rematch (y m r py pm : Nat) (hm1 : 1 ≤ m) (hm2 : m ≤ 12)
    (hy1 : 1001 ≤ y) (hy2 : y ≤ 9999) (hr1 : 1000 ≤ r) (hr2 : r ≤ 9999)
    (hprev : prevMonthE ⟨y, m, 1⟩ = .ok (py, pm)) :
    (searchSome matchAtD1 (dateLabel ++ [' '] ++ dateFormat1 ⟨y, m, 1⟩)).isSome = true ∧
    (searchSome matchAtD2 (dateFormat2 ⟨y, m, 1⟩)).isSome = true ∧
    (searchSome matchAtInv (invoiceNumberStr r ⟨y, m, 1⟩)).isSome = true ∧
    (searchSome matchAtSp (servicePeriodStr ⟨y, m, 1⟩ py pm)).isSome = true := by
  have hline : dateLabel ++ [' '] ++ dateFormat1 ⟨y, m, 1⟩ = mkDateLine 1 m y := by
    show dateLabel ++ [' '] ++
        (ordinalTxt (PDate.day ⟨y, m, 1⟩) ++ [' '] ++ monthName (PDate.month ⟨y, m, 1⟩) ++
          [' '] ++ natDigits (PDate.year ⟨y, m, 1⟩)) = _
    rw [show PDate.day ⟨y, m, 1⟩ = 1 from rfl, show PDate.month ⟨y, m, 1⟩ = m from rfl,
      show PDate.year ⟨y, m, 1⟩ = y from rfl, natDigits_eq_pad4 (by omega) hy2]
    simp [mkDateLine, List.append_assoc]
  have hpp : (py = y - 1 ∧ pm = 12 ∧ m = 1) ∨ (py = y ∧ pm = m - 1 ∧ 2 ≤ m) := by
    unfold prevMonthE at hprev
    by_cases h : m = 1
    · rw [if_pos (by simpa using h), if_pos (by simp; omega)] at hprev
      simp at hprev
      exact Or.inl ⟨hprev.1.symm, hprev.2.symm, h⟩
    · rw [if_neg (by simpa using h)] at hprev
      simp at hprev
      exact Or.inr ⟨hprev.1.symm, hprev.2.symm, by omega⟩
  refine ⟨?_, ?_, ?_, ?_⟩
  · rw [hline, searchSome_of_match (matchAtD1_line (by decide) (by decide) hm1 hm2)]
    rfl
  · rw [searchSome_of_match (matchAtD2_fmt (by omega) (by omega) hy2)]
    rfl
  · rw [searchSome_of_match (matchAtInv_full hr1 hr2 hy1 hy2)]
    rfl
  · rcases hpp with ⟨h1, h2, h3⟩ | ⟨h1, h2, h3⟩
    · subst h1; subst h2
      rw [searchSome_of_match (matchAtSp_service (by decide) (by decide) hm1 hm2
        (by omega) (by omega) (by omega) hy2)]
      rfl
    · subst h1; subst h2
      rw [searchSome_of_match (matchAtSp_service (by omega) (by omega) hm1 hm2
        (by omega) hy2 (by omega) hy2)]
      rfl

/-- C10 counterexample: invoice date March of year 1000 is derivable
(prior line `Date: 1st February 1000` parses and the deriver advances
one month), and its invoice-number replacement `IN5678/999-00` — the
financial-year label being `999-00` — contains no match of the
invoice-number search pattern `IN\d{4}/\d{4}-\d{2}`: one of the four
replacement strings does not re-match its own field's pattern. -/
theorem c10_replacements_rematch_cex :
    determineInvoiceDate [(Except.ok ⟨["Date: 1st February 1000".toList], []⟩, 1)]
        ⟨2026, 10, 12⟩ = .ok ⟨1000, 3, 1⟩ ∧
    invoiceNumberStr 5678 ⟨1000, 3, 1⟩ = "IN5678/999-00".toList ∧
    searchSome matchAtInv (invoiceNumberStr 5678 ⟨1000, 3, 1⟩) = none :=
  ⟨by decide, by decide, by decide⟩

/-- C10 witness: February 2026 (previous month January 2026), draw 4321. -/
theorem c10_replacements_rematch_witness :
    (1 ≤ 2 ∧ 2 ≤ 12 ∧ 1001 ≤ 2026 ∧ 2026 ≤ 9999 ∧ 1000 ≤ 4321 ∧ 4321 ≤ 9999 ∧
      prevMonthE ⟨2026, 2, 1⟩ = .ok (2026, 1)) ∧
    ((searchSome matchAtD1 (dateLabel ++ [' '] ++ dateFormat1 ⟨2026, 2, 1⟩)).isSome = true ∧
      (searchSome matchAtD2 (dateFormat2 ⟨2026, 2, 1⟩)).isSome = true ∧
      (searchSome matchAtInv (invoiceNumberStr 4321 ⟨2026, 2, 1⟩)).isSome = true ∧
      (searchSome matchAtSp (servicePeriodStr ⟨2026, 2, 1⟩ 2026 1)).isSome = true) :=
  ⟨⟨by decide, by decide, by decide, by decide, by decide, by decide, by decide⟩,
    c10_replacements_rematch 2026 2 4321 2026 1 (by decide) (by decide) (by decide)
      (by decide) (by decide) (by decide) (by decide)⟩

/-! ### Claim C5: each field rewrites at most one region per run -/

theorem countTag_append_one (f g : FTag) (l : List FTag) :
    countTag f (l ++ [g]) = countTag f l + (if g = f then 1 else 0) := by
  by_cases h : g = f
  · subst h
    simp [countTag, List.filter_append]
  · simp [countTag, List.filter_append, h]

/-- Firing a field's substitution logs its tag once and raises its flag;
the measure of every field does not increase. -/
theorem fireMeasure_fire (g : FTag) {s s' : RState} (hflag : flagOf g s = false)
    (hlog : s'.log = s.log ++ [g]) (hgs : flagOf g s' = true)
    (hothers : ∀ f, f ≠ g → flagOf f s' = flagOf f s) :
    ∀ f, fireMeasure f s' ≤ fireMeasure f s := by
  intro f
  by_cases h : f = g
  · subst h
    rw [fireMeasure, fireMeasure, hlog, countTag_append_one, hgs, hflag]
    simp
  · rw [fireMeasure, fireMeasure, hlog, countTag_append_one, hothers f h]
    have : ¬(g = f) := fun hh => h hh.symm
    simp [this]

theorem invStep_measure (inv : Text) (s : RState) (t : Text) (f : FTag) :
    fireMeasure f (invStep inv s t).1 ≤ fireMeasure f s := by
  unfold invStep
  by_cases hc : (containsSub invLabel t && !s.fi) = true
  · rw [if_pos hc]
    have hflag : s.fi = false := by
      revert hc
      cases s.fi <;> simp
    cases hs : searchSome matchAtInv t with
    | none => exact le_refl (fireMeasure f s)
    | some w =>
      dsimp only
      split_ifs with ht
      · exact le_refl (fireMeasure f s)
      · refine fireMeasure_fire FTag.inv hflag ?_ ?_ ?_ f
        · rfl
        · rfl
        · intro f' hf'
          cases f' <;> (try rfl) <;> exact absurd rfl hf'
  · rw [if_neg hc]

theorem d2Step_measure (d2 : Text) (s : RState) (t : Text) (f : FTag) :
    fireMeasure f (d2Step d2 s t).1 ≤ fireMeasure f s := by
  unfold d2Step
  by_cases hc : (containsSub dateLabel t && containsSub ['/'] t && !s.f2) = true
  · rw [if_pos hc]
    have hflag : s.f2 = false := by
      revert hc
      cases s.f2 <;> simp
    cases hs : searchSome matchAtD2 t with
    | none => exact le_refl (fireMeasure f s)
    | some w =>
      dsimp only
      split_ifs with ht
      · exact le_refl (fireMeasure f s)
      · refine fireMeasure_fire FTag.d2 hflag ?_ ?_ ?_ f
        · rfl
        · rfl
        · intro f' hf'
          cases f' <;> (try rfl) <;> exact absurd rfl hf'
  · rw [if_neg hc]

theorem spStep_measure (sp : Text) (s : RState) (t : Text) (f : FTag) :
    fireMeasure f (spStep sp s t).1 ≤ fireMeasure f s := by
  unfold spStep
  cases hs : searchSome matchAtSp t with
  | none => exact le_refl (fireMeasure f s)
  | some w =>
    dsimp only
    split_ifs with hfs ht
    · exact le_refl (fireMeasure f s)
    · have hflag : s.fs = false := by
        revert hfs
        cases s.fs <;> simp
      refine fireMeasure_fire FTag.sp hflag ?_ ?_ ?_ f
      · rfl
      · rfl
      · intro f' hf'
        cases f' <;> (try rfl) <;> exact absurd rfl hf'
    · exact le_refl (fireMeasure f s)

theorem step1_measure (d1 : Text) (s : RState) (t : Text) (f : FTag) :
    fireMeasure f (step1 d1 s t).1 ≤ fireMeasure f s := by
  unfold step1
  by_cases hc : (containsSub dateLabel t &&
      (containsSub "st".toList t || containsSub "nd".toList t ||
       containsSub "rd".toList t || containsSub "th".toList t) && !s.f1) = true
  · rw [if_pos hc]
    have hflag : s.f1 = false := by
      revert hc
      cases s.f1 <;> simp
    cases hs : searchSome matchAtD1 t with
    | none => exact le_refl (fireMeasure f s)
    | some w =>
      dsimp only
      split_ifs with ht
      · exact le_refl (fireMeasure f s)
      · refine fireMeasure_fire FTag.d1 hflag ?_ ?_ ?_ f
        · rfl
        · rfl
        · intro f' hf'
          cases f' <;> (try rfl) <;> exact absurd rfl hf'
  · rw [if_neg hc]

theorem stepCell_measure (inv d2 sp : Text) (s : RState) (t : Text) (f : FTag) :
    fireMeasure f (stepCell inv d2 sp s t).1 ≤ fireMeasure f s := by
  unfold stepCell
  rcases h1 : invStep inv s t with ⟨s1, t1⟩
  rcases h2 : d2Step d2 s1 t1 with ⟨s2, t2⟩
  simp only [h1, h2]
  calc fireMeasure f (spStep sp s2 t2).1 ≤ fireMeasure f s2 := spStep_measure sp s2 t2 f
    _ = fireMeasure f (d2Step d2 s1 t1).1 := by rw [h2]
    _ ≤ fireMeasure f s1 := d2Step_measure d2 s1 t1 f
    _ = fireMeasure f (invStep inv s t).1 := by rw [h1]
    _ ≤ fireMeasure f s := invStep_measure inv s t f

theorem stepPara2_measure (inv d2 : Text) (s : RState) (t : Text) (f : FTag) :
    fireMeasure f (stepPara2 inv d2 s t).1 ≤ fireMeasure f s := by
  unfold stepPara2
  rcases h1 : invStep inv s t with ⟨s1, t1⟩
  simp only [h1]
  calc fireMeasure f (d2Step d2 s1 t1).1 ≤ fireMeasure f s1 := d2Step_measure d2 s1 t1 f
    _ = fireMeasure f (invStep inv s t).1 := by rw [h1]
    _ ≤ fireMeasure f s := invStep_measure inv s t f

theorem statefulMap_measure {σ α : Type} {f : σ → α → σ × α} {μ : σ → Nat}
    (hf : ∀ s a, μ (f s a).1 ≤ μ s) :
    ∀ (s : σ) (l : List α), μ (statefulMap f s l).1 ≤ μ s := by
  intro s l
  induction l generalizing s with
  | nil => exact le_refl _
  | cons a t ih =>
    rcases hfa : f s a with ⟨s1, a1⟩
    rcases hst : statefulMap f s1 t with ⟨s2, l2⟩
    have hstep : statefulMap f s (a :: t) = (s2, a1 :: l2) := by
      simp [statefulMap, hfa, hst]
    rw [hstep]
    calc μ s2 = μ (statefulMap f s1 t).1 := by rw [hst]
      _ ≤ μ s1 := ih s1
      _ = μ (f s a).1 := by rw [hfa]
      _ ≤ μ s := hf s a

/-- C5 (amended): per field the Rewriter changes at most one region per
run — the log records one `Updated …` event per field at most (a fire
needs the field's flag down and raises it).  Within that single region,
however, `re.sub` replaces every occurrence of the pattern, not only
the first (see the counterexample), and occurrences in all other
regions are left unchanged. -/
theorem c5_one_region_per_field (doc : Doc) (d1 d2 inv sp : Text) :
    countTag .d1 (rewriteDoc d1 d2 inv sp doc).2.log ≤ 1 ∧
    countTag .d2 (rewriteDoc d1 d2 inv sp doc).2.log ≤ 1 ∧
    countTag .inv (rewriteDoc d1 d2 inv sp doc).2.log ≤ 1 ∧
    countTag .sp (rewriteDoc d1 d2 inv sp doc).2.log ≤ 1 := by
  have key : ∀ f, countTag f (rewriteDoc d1 d2 inv sp doc).2.log ≤ 1 := by
    intro f
    rcases hA : statefulMap (step1 d1) st0 doc.paragraphs with ⟨sA, ps1⟩
    rcases hB : statefulMap (statefulMap (statefulMap (statefulMap (stepCell inv d2 sp)))) sA
      doc.tables with ⟨sB, tbls⟩
    rcases hC : (if !sB.fi || !sB.f2 then statefulMap (stepPara2 inv d2) sB ps1
      else (sB, ps1)) with ⟨sC, ps2⟩
    have hst : (rewriteDoc d1 d2 inv sp doc).2 = sC := by
      simp only [rewriteDoc, hA, hB]
      exact congrArg Prod.fst hC
    have h0 : fireMeasure f st0 = 1 := by
      cases f <;> rfl
    have hA' : fireMeasure f sA ≤ 1 := by
      rw [← h0, show sA = (statefulMap (step1 d1) st0 doc.paragraphs).1 by rw [hA]]
      exact statefulMap_measure (fun s t => step1_measure d1 s t f) st0 doc.paragraphs
    have hB' : fireMeasure f sB ≤ fireMeasure f sA := by
      rw [show sB = (statefulMap (statefulMap (statefulMap (statefulMap
        (stepCell inv d2 sp)))) sA doc.tables).1 by rw [hB]]
      exact statefulMap_measure
        (statefulMap_measure (statefulMap_measure (statefulMap_measure
          (fun s t => stepCell_measure inv d2 sp s t f)))) sA doc.tables
    have hC' : fireMeasure f sC ≤ fireMeasure f sB := by
      by_cases hcond : (!sB.fi || !sB.f2) = true
      · rw [if_pos hcond] at hC
        rw [show sC = (statefulMap (stepPara2 inv d2) sB ps1).1 by rw [hC]]
        exact statefulMap_measure (fun s t => stepPara2_measure inv d2 s t f) sB ps1
      · rw [if_neg hcond] at hC
        have hsc : sC = sB := by
          have := congrArg Prod.fst hC
          simpa using this.symm
        rw [hsc]
    have : countTag f sC.log ≤ fireMeasure f sC := by
      rw [fireMeasure]
      omega
    rw [hst]
    omega
  exact ⟨key .d1, key .d2, key .inv, key .sp⟩

/-- C5 counterexample: one paragraph holding two long-form date
occurrences.  The claim says only the first matching occurrence is
replaced and every further one left unchanged, but `re.sub` rewrites
both in the single matched region. -/
theorem c5_one_region_per_field_cex :
    (rewriteDoc ("1st July 2025".toList) ("1/07/2025".toList) ("IN9999/2025-26".toList)
        ("7th June 2025 to 6th July 2025".toList)
        ⟨["Date: 1st February 2025 and Date: 2nd March 2026".toList], []⟩).1.paragraphs =
      ["Date: 1st July 2025 and Date: 1st July 2025".toList] ∧
    ["Date: 1st July 2025 and Date: 1st July 2025".toList] ≠
      ["Date: 1st July 2025 and Date: 2nd March 2026".toList] :=
  ⟨by decide, by decide⟩

/-! ### Claim C8: templates where only some fields match -/

theorem statefulMap_id {σ α : Type} {f : σ → α → σ × α} (s : σ) (l : List α)
    (h : ∀ (s' : σ) a, a ∈ l → f s' a = (s', a)) : statefulMap f s l = (s, l) := by
  induction l generalizing s with
  | nil => rfl
  | cons a tl ih =>
    have ha : f s a = (s, a) := h s a (by simp)
    have ht : statefulMap f s tl = (s, tl) := ih s (fun s' x hx => h s' x (by simp [hx]))
    simp [statefulMap, ha, ht]

theorem step1_noMatch {d1 : Text} {s : RState} {t : Text}
    (h : searchSome matchAtD1 t = none) : step1 d1 s t = (s, t) := by
  unfold step1
  split_ifs with hc
  · rw [h]
  · rfl

theorem d2Step_noMatch {d2 : Text} {s : RState} {t : Text}
    (h : searchSome matchAtD2 t = none) : d2Step d2 s t = (s, t) := by
  unfold d2Step
  split_ifs with hc
  · rw [h]
  · rfl

theorem spStep_noMatch {sp : Text} {s : RState} {t : Text}
    (h : searchSome matchAtSp t = none) : spStep sp s t = (s, t) := by
  unfold spStep
  rw [h]

theorem invStep_cases (inv : Text) (s : RState) (t : Text) :
    invStep inv s t = (s, t) ∨
    invStep inv s t =
      ({ s with fi := true, log := s.log ++ [FTag.inv] }, subAll matchAtInv inv t) := by
  unfold invStep
  split_ifs with hc
  · cases hs : searchSome matchAtInv t with
    | none => exact Or.inl rfl
    | some w =>
      dsimp only
      split_ifs with ht
      · exact Or.inl (by rw [ht])
      · exact Or.inr rfl
  · exact Or.inl rfl

theorem stepCell_ok (inv d2 sp : Text) (s : RState) (t : Text) (h : HypC8 inv t) :
    (stepCell inv d2 sp s t).1.f1 = s.f1 ∧ (stepCell inv d2 sp s t).1.f2 = s.f2 ∧
    (stepCell inv d2 sp s t).1.fs = s.fs ∧ RelC8 inv t (stepCell inv d2 sp s t).2 := by
  obtain ⟨⟨_, hn2, hn3⟩, ⟨_, hs2, hs3⟩⟩ := h
  unfold stepCell
  rcases invStep_cases inv s t with hi | hi <;> rw [hi] <;> dsimp only
  · rw [d2Step_noMatch hn2]
    dsimp only
    rw [spStep_noMatch hn3]
    exact ⟨rfl, rfl, rfl, Or.inl rfl⟩
  · rw [d2Step_noMatch hs2]
    dsimp only
    rw [spStep_noMatch hs3]
    exact ⟨rfl, rfl, rfl, Or.inr rfl⟩

theorem stepPara2_ok (inv d2 : Text) (s : RState) (t : Text) (h : HypC8 inv t) :
    (stepPara2 inv d2 s t).1.f1 = s.f1 ∧ (stepPara2 inv d2 s t).1.f2 = s.f2 ∧
    (stepPara2 inv d2 s t).1.fs = s.fs ∧ RelC8 inv t (stepPara2 inv d2 s t).2 := by
  obtain ⟨⟨_, hn2, _⟩, ⟨_, hs2, _⟩⟩ := h
  unfold stepPara2
  rcases invStep_cases inv s t with hi | hi <;> rw [hi] <;> dsimp only
  · rw [d2Step_noMatch hn2]
    exact ⟨rfl, rfl, rfl, Or.inl rfl⟩
  · rw [d2Step_noMatch hs2]
    exact ⟨rfl, rfl, rfl, Or.inr rfl⟩

theorem invStep_fi_mono (inv : Text) (s : RState) (t : Text) (h : s.fi = true) :
    (invStep inv s t).1.fi = true := by
  simp [invStep, h]

theorem invStep_fires (inv : Text) (s : RState) (t : Text) (h : InvCand inv t) :
    (invStep inv s t).1.fi = true := by
  obtain ⟨h1, h2, h3⟩ := h
  cases hf : s.fi with
  | true => exact invStep_fi_mono inv s t hf
  | false =>
    unfold invStep
    rw [if_pos (by rw [h1, hf]; rfl)]
    cases hs : searchSome matchAtInv t with
    | none => exact absurd hs h2
    | some w =>
      dsimp only
      split_ifs with ht
      · exact absurd ht h3
      · rfl

theorem invStep_id (inv : Text) (s : RState) (t : Text) (h : ¬ InvCand inv t) :
    invStep inv s t = (s, t) := by
  unfold invStep
  split_ifs with hc
  · cases hs : searchSome matchAtInv t with
    | none => rfl
    | some w =>
      dsimp only
      split_ifs with ht
      · rw [ht]
      · refine absurd ?_ h
        refine ⟨(Bool.and_eq_true _ _ |>.mp hc).1, ?_, ht⟩
        rw [hs]
        simp
  · rfl

theorem d2Step_fi (d2 : Text) (s : RState) (t : Text) : (d2Step d2 s t).1.fi = s.fi := by
  unfold d2Step
  split_ifs with hc
  · cases hs : searchSome matchAtD2 t with
    | none => rfl
    | some w =>
      dsimp only
      split_ifs with ht
      · rfl
      · rfl
  · rfl

theorem spStep_fi (sp : Text) (s : RState) (t : Text) : (spStep sp s t).1.fi = s.fi := by
  unfold spStep
  cases hs : searchSome matchAtSp t with
  | none => rfl
  | some w =>
    dsimp only
    split_ifs with h1 h2
    · rfl
    · rfl
    · rfl

theorem stepCell_eta (inv d2 sp : Text) (s : RState) (t : Text) :
    stepCell inv d2 sp s t =
      spStep sp (d2Step d2 (invStep inv s t).1 (invStep inv s t).2).1
        (d2Step d2 (invStep inv s t).1 (invStep inv s t).2).2 := rfl

theorem stepPara2_eta (inv d2 : Text) (s : RState) (t : Text) :
    stepPara2 inv d2 s t = d2Step d2 (invStep inv s t).1 (invStep inv s t).2 := rfl

theorem stepCell_fi_mono (inv d2 sp : Text) (s : RState) (t : Text) (h : s.fi = true) :
    (stepCell inv d2 sp s t).1.fi = true := by
  rw [stepCell_eta, spStep_fi, d2Step_fi]
  exact invStep_fi_mono inv s t h

theorem stepCell_fires (inv d2 sp : Text) (s : RState) (t : Text) (h : InvCand inv t) :
    (stepCell inv d2 sp s t).1.fi = true := by
  rw [stepCell_eta, spStep_fi, d2Step_fi]
  exact invStep_fires inv s t h

theorem stepCell_id (inv d2 sp : Text) (s : RState) (t : Text) (h8 : HypC8 inv t)
    (h : ¬ InvCand inv t) : stepCell inv d2 sp s t = (s, t) := by
  rw [stepCell_eta, invStep_id inv s t h]
  dsimp only
  rw [d2Step_noMatch h8.1.2.1]
  dsimp only
  rw [spStep_noMatch h8.1.2.2]

theorem stepPara2_fi_mono (inv d2 : Text) (s : RState) (t : Text) (h : s.fi = true) :
    (stepPara2 inv d2 s t).1.fi = true := by
  rw [stepPara2_eta, d2Step_fi]
  exact invStep_fi_mono inv s t h

theorem stepPara2_fires (inv d2 : Text) (s : RState) (t : Text) (h : InvCand inv t) :
    (stepPara2 inv d2 s t).1.fi = true := by
  rw [stepPara2_eta, d2Step_fi]
  exact invStep_fires inv s t h

theorem stepPara2_id (inv d2 : Text) (s : RState) (t : Text) (h8 : HypC8 inv t)
    (h : ¬ InvCand inv t) : stepPara2 inv d2 s t = (s, t) := by
  rw [stepPara2_eta, invStep_id inv s t h]
  dsimp only
  rw [d2Step_noMatch h8.1.2.1]

/-- A state predicate each step preserves is preserved by the whole
traversal. -/
theorem statefulMap_pred {σ α : Type} {f : σ → α → σ × α} {Q : σ → Prop}
    (hmono : ∀ s a, Q s → Q (f s a).1) :
    ∀ (s : σ) (l : List α), Q s → Q (statefulMap f s l).1 := by
  intro s l
  induction l generalizing s with
  | nil => exact fun h => h
  | cons a tl ih =>
    intro h
    rcases hfa : f s a with ⟨s1, a1⟩
    rcases hst : statefulMap f s1 tl with ⟨s2, l2⟩
    have hmap : statefulMap f s (a :: tl) = (s2, a1 :: l2) := by
      simp [statefulMap, hfa, hst]
    rw [hmap]
    have h1 := hmono s a h
    rw [hfa] at h1
    have h2 := ih s1 h1
    rw [hst] at h2
    exact h2

/-- If some element of the list establishes a step-preserved state
predicate unconditionally, the traversal ends in it. -/
theorem statefulMap_fires {σ α : Type} {f : σ → α → σ × α} {Q : σ → Prop} {C : α → Prop}
    (hmono : ∀ s a, Q s → Q (f s a).1)
    (hfire : ∀ s a, C a → Q (f s a).1) :
    ∀ (s : σ) (l : List α), (∃ a ∈ l, C a) → Q (statefulMap f s l).1 := by
  intro s l
  induction l generalizing s with
  | nil =>
    rintro ⟨a, ha, _⟩
    exact absurd ha (List.not_mem_nil a)
  | cons a tl ih =>
    rintro ⟨x, hx, hC⟩
    rcases hfa : f s a with ⟨s1, a1⟩
    rcases hst : statefulMap f s1 tl with ⟨s2, l2⟩
    have hmap : statefulMap f s (a :: tl) = (s2, a1 :: l2) := by
      simp [statefulMap, hfa, hst]
    rw [hmap]
    rcases List.mem_cons.mp hx with h | h
    · subst h
      have h1 := hfire s x hC
      rw [hfa] at h1
      have h2 := statefulMap_pred hmono s1 tl h1
      rw [hst] at h2
      exact h2
    · have h2 := ih s1 ⟨x, h, hC⟩
      rw [hst] at h2
      exact h2

/-- A stateful traversal whose step preserves a state relation `P` and
rewrites each element inside `R` does the same for whole lists. -/
theorem statefulMap_ok {σ α : Type} {f : σ → α → σ × α} {P : σ → σ → Prop} {H : α → Prop}
    {R : α → α → Prop} (hrefl : ∀ s, P s s)
    (htrans : ∀ a b c, P a b → P b c → P a c)
    (hf : ∀ s a, H a → P s (f s a).1 ∧ R a (f s a).2) :
    ∀ (s : σ) (l : List α), (∀ a ∈ l, H a) →
      P s (statefulMap f s l).1 ∧ List.Forall₂ R l (statefulMap f s l).2 := by
  intro s l
  induction l generalizing s with
  | nil => exact fun _ => ⟨hrefl s, List.Forall₂.nil⟩
  | cons a tl ih =>
    intro hH
    rcases hfa : f s a with ⟨s1, a1⟩
    rcases hst : statefulMap f s1 tl with ⟨s2, l2⟩
    have hstep : statefulMap f s (a :: tl) = (s2, a1 :: l2) := by
      simp [statefulMap, hfa, hst]
    rw [hstep]
    have h1 := hf s a (hH a (by simp))
    rw [hfa] at h1
    have h2 := ih s1 (fun x hx => hH x (by simp [hx]))
    rw [hst] at h2
    exact ⟨htrans _ _ _ h1.1 h2.1, List.Forall₂.cons h1.2 h2.2⟩

/-- C8: against a template where the long-form date, slash date and
service-period patterns match nothing (neither the original regions nor
their invoice-number rewrites) — e.g. a template with only an
invoice-number region — the run leaves those three flags false, changes
each region at most into its invoice-number rewrite, does not throw,
and still saves the document under the generated filename.  Moreover
the invoice-number field really is updated when it can be: if some
region carries the `Invoice No:` label and its invoice-number
substitution changes it, the run ends with the invoice-number flag
raised; and if no region does, the flag stays down and the document is
returned unchanged. -/
theorem c8_partial_updates (doc : Doc) (files : List (Except Unit Doc × Nat)) (now : PDate)
    (r : Nat) (d : PDate) (pq : Nat × Nat)
    (hD : determineInvoiceDate files now = .ok d)
    (hPm : prevMonthE d = .ok pq)
    (hparas : ∀ p ∈ doc.paragraphs, HypC8 (invoiceNumberStr r d) p)
    (htbls : ∀ tb ∈ doc.tables, ∀ rw ∈ tb, ∀ c ∈ rw, ∀ t ∈ c,
      HypC8 (invoiceNumberStr r d) t) :
    ∃ doc' st, autoUpdateTrace (.ok doc) files now r true = some (fileNameFor d, doc', st) ∧
      st.f1 = false ∧ st.f2 = false ∧ st.fs = false ∧
      List.Forall₂ (RelC8 (invoiceNumberStr r d)) doc.paragraphs doc'.paragraphs ∧
      List.Forall₂ (List.Forall₂ (List.Forall₂ (List.Forall₂
        (RelC8 (invoiceNumberStr r d))))) doc.tables doc'.tables ∧
      ((∃ t ∈ docTexts doc, InvCand (invoiceNumberStr r d) t) → st.fi = true) ∧
      ((∀ t ∈ docTexts doc, ¬ InvCand (invoiceNumberStr r d) t) →
        st.fi = false ∧ doc' = doc) := by
  have hrefl : ∀ s : RState, s.f1 = s.f1 ∧ s.f2 = s.f2 ∧ s.fs = s.fs :=
    fun s => ⟨rfl, rfl, rfl⟩
  have htrans : ∀ a b c : RState,
      (b.f1 = a.f1 ∧ b.f2 = a.f2 ∧ b.fs = a.fs) →
      (c.f1 = b.f1 ∧ c.f2 = b.f2 ∧ c.fs = b.fs) →
      (c.f1 = a.f1 ∧ c.f2 = a.f2 ∧ c.fs = a.fs) := by
    intro a b c h1 h2
    exact ⟨h2.1.trans h1.1, h2.2.1.trans h1.2.1, h2.2.2.trans h1.2.2⟩
  rcases hA : statefulMap (step1 (dateFormat1 d)) st0 doc.paragraphs with ⟨sA, ps1⟩
  have hA' : (sA, ps1) = (st0, doc.paragraphs) := by
    rw [← hA]
    exact statefulMap_id st0 doc.paragraphs
      (fun s' p hp => step1_noMatch (hparas p hp).1.1)
  have hsA : sA = st0 := congrArg Prod.fst hA'
  have hps1 : ps1 = doc.paragraphs := congrArg Prod.snd hA'
  rcases hB : statefulMap (statefulMap (statefulMap (statefulMap
    (stepCell (invoiceNumberStr r d) (dateFormat2 d) (servicePeriodStr d pq.1 pq.2)))))
    sA doc.tables with ⟨sB, tbls'⟩
  have hstep : ∀ (s : RState) (t : Text), HypC8 (invoiceNumberStr r d) t →
      ((stepCell (invoiceNumberStr r d) (dateFormat2 d) (servicePeriodStr d pq.1 pq.2)
          s t).1.f1 = s.f1 ∧
        (stepCell (invoiceNumberStr r d) (dateFormat2 d) (servicePeriodStr d pq.1 pq.2)
          s t).1.f2 = s.f2 ∧
        (stepCell (invoiceNumberStr r d) (dateFormat2 d) (servicePeriodStr d pq.1 pq.2)
          s t).1.fs = s.fs) ∧
      RelC8 (invoiceNumberStr r d) t
        (stepCell (invoiceNumberStr r d) (dateFormat2 d) (servicePeriodStr d pq.1 pq.2)
          s t).2 := by
    intro s t ht
    have h := stepCell_ok (invoiceNumberStr r d) (dateFormat2 d)
      (servicePeriodStr d pq.1 pq.2) s t ht
    exact ⟨⟨h.1, h.2.1, h.2.2.1⟩, h.2.2.2⟩
  have lvl1 := statefulMap_ok hrefl htrans hstep
  have lvl2 := statefulMap_ok hrefl htrans lvl1
  have lvl3 := statefulMap_ok hrefl htrans lvl2
  have lvl4 := statefulMap_ok hrefl htrans lvl3
  have hBok := lvl4 sA doc.tables htbls
  rw [hB] at hBok
  have hstep2 : ∀ (s : RState) (t : Text), HypC8 (invoiceNumberStr r d) t →
      ((stepPara2 (invoiceNumberStr r d) (dateFormat2 d) s t).1.f1 = s.f1 ∧
        (stepPara2 (invoiceNumberStr r d) (dateFormat2 d) s t).1.f2 = s.f2 ∧
        (stepPara2 (invoiceNumberStr r d) (dateFormat2 d) s t).1.fs = s.fs) ∧
      RelC8 (invoiceNumberStr r d) t
        (stepPara2 (invoiceNumberStr r d) (dateFormat2 d) s t).2 := by
    intro s t ht
    have h := stepPara2_ok (invoiceNumberStr r d) (dateFormat2 d) s t ht
    exact ⟨⟨h.1, h.2.1, h.2.2.1⟩, h.2.2.2⟩
  have hf2B : sB.f2 = false := by
    rw [hBok.1.2.1, hsA]
    rfl
  have hcond : (!sB.fi || !sB.f2) = true := by
    rw [hf2B]
    simp
  rcases hC : statefulMap (stepPara2 (invoiceNumberStr r d) (dateFormat2 d)) sB ps1
    with ⟨sC, ps2⟩
  have hCok := statefulMap_ok hrefl htrans hstep2 sB ps1
    (by rw [hps1]; exact hparas)
  rw [hC] at hCok
  refine ⟨⟨ps2, tbls'⟩, sC, ?_, ?_, ?_, ?_, ?_, ?_, ?_, ?_⟩
  · simp only [autoUpdateTrace, hD, hPm, rewriteDoc, hA, hB, if_pos hcond, hC]
    simp
  · rw [hCok.1.1, hBok.1.1, hsA]
    rfl
  · rw [hCok.1.2.1, hf2B]
  · rw [hCok.1.2.2, hBok.1.2.2, hsA]
    rfl
  · rw [← hps1]
    exact hCok.2
  · exact hBok.2
  · rintro ⟨t, ht, hcand⟩
    have hmono1 : ∀ (s : RState) (x : Text), s.fi = true →
        (stepCell (invoiceNumberStr r d) (dateFormat2 d) (servicePeriodStr d pq.1 pq.2)
          s x).1.fi = true :=
      fun s x h => stepCell_fi_mono _ _ _ s x h
    have hfire1 : ∀ (s : RState) (x : Text), InvCand (invoiceNumberStr r d) x →
        (stepCell (invoiceNumberStr r d) (dateFormat2 d) (servicePeriodStr d pq.1 pq.2)
          s x).1.fi = true :=
      fun s x h => stepCell_fires _ _ _ s x h
    have hmono2 : ∀ (s : RState) (c : List Text), s.fi = true →
        (statefulMap (stepCell (invoiceNumberStr r d) (dateFormat2 d)
          (servicePeriodStr d pq.1 pq.2)) s c).1.fi = true :=
      fun s c h => statefulMap_pred hmono1 s c h
    have hfire2 : ∀ (s : RState) (c : List Text),
        (∃ x ∈ c, InvCand (invoiceNumberStr r d) x) →
        (statefulMap (stepCell (invoiceNumberStr r d) (dateFormat2 d)
          (servicePeriodStr d pq.1 pq.2)) s c).1.fi = true :=
      fun s c h => statefulMap_fires hmono1 hfire1 s c h
    have hmono3 : ∀ (s : RState) (rw0 : List (List Text)), s.fi = true →
        (statefulMap (statefulMap (stepCell (invoiceNumberStr r d) (dateFormat2 d)
          (servicePeriodStr d pq.1 pq.2))) s rw0).1.fi = true :=
      fun s rw0 h => statefulMap_pred hmono2 s rw0 h
    have hfire3 : ∀ (s : RState) (rw0 : List (List Text)),
        (∃ c ∈ rw0, ∃ x ∈ c, InvCand (invoiceNumberStr r d) x) →
        (statefulMap (statefulMap (stepCell (invoiceNumberStr r d) (dateFormat2 d)
          (servicePeriodStr d pq.1 pq.2))) s rw0).1.fi = true :=
      fun s rw0 h => statefulMap_fires hmono2 hfire2 s rw0 h
    have hmono4 : ∀ (s : RState) (tb : List (List (List Text))), s.fi = true →
        (statefulMap (statefulMap (statefulMap (stepCell (invoiceNumberStr r d)
          (dateFormat2 d) (servicePeriodStr d pq.1 pq.2)))) s tb).1.fi = true :=
      fun s tb h => statefulMap_pred hmono3 s tb h
    have hfire4 : ∀ (s : RState) (tb : List (List (List Text))),
        (∃ rw0 ∈ tb, ∃ c ∈ rw0, ∃ x ∈ c, InvCand (invoiceNumberStr r d) x) →
        (statefulMap (statefulMap (statefulMap (stepCell (invoiceNumberStr r d)
          (dateFormat2 d) (servicePeriodStr d pq.1 pq.2)))) s tb).1.fi = true :=
      fun s tb h => statefulMap_fires hmono3 hfire3 s tb h
    have hmonoP : ∀ (s : RState) (x : Text), s.fi = true →
        (stepPara2 (invoiceNumberStr r d) (dateFormat2 d) s x).1.fi = true :=
      fun s x h => stepPara2_fi_mono _ _ s x h
    have hfireP : ∀ (s : RState) (x : Text), InvCand (invoiceNumberStr r d) x →
        (stepPara2 (invoiceNumberStr r d) (dateFormat2 d) s x).1.fi = true :=
      fun s x h => stepPara2_fires _ _ s x h
    unfold docTexts at ht
    rcases List.mem_append.mp ht with hp | htb
    · have h2 := statefulMap_fires hmonoP hfireP sB ps1
        ⟨t, by rw [hps1]; exact hp, hcand⟩
      rw [hC] at h2
      exact h2
    · obtain ⟨c, hcA, htc⟩ := List.mem_flatten.mp htb
      obtain ⟨rw0, hrwA, hcrw⟩ := List.mem_flatten.mp hcA
      obtain ⟨tb, htbA, hrwtb⟩ := List.mem_flatten.mp hrwA
      have hB' := statefulMap_fires hmono4 hfire4 sA doc.tables
        ⟨tb, htbA, rw0, hrwtb, c, hcrw, t, htc, hcand⟩
      rw [hB] at hB'
      have h2 := statefulMap_pred hmonoP sB ps1 hB'
      rw [hC] at h2
      exact h2
  · intro hnone
    have hid4 : statefulMap (statefulMap (statefulMap (statefulMap
        (stepCell (invoiceNumberStr r d) (dateFormat2 d) (servicePeriodStr d pq.1 pq.2)))))
        sA doc.tables = (sA, doc.tables) := by
      refine statefulMap_id sA doc.tables ?_
      intro s4 tb htb4
      refine statefulMap_id s4 tb ?_
      intro s3 rw0 hrw3
      refine statefulMap_id s3 rw0 ?_
      intro s2 c hc2
      refine statefulMap_id s2 c ?_
      intro s1 x hx1
      refine stepCell_id _ _ _ s1 x (htbls tb htb4 rw0 hrw3 c hc2 x hx1) ?_
      refine hnone x ?_
      unfold docTexts
      exact List.mem_append_right _ (List.mem_flatten.mpr ⟨c,
        List.mem_flatten.mpr ⟨rw0, List.mem_flatten.mpr ⟨tb, htb4, hrw3⟩, hc2⟩, hx1⟩)
    have hsB' : sB = sA := congrArg Prod.fst (hB.symm.trans hid4)
    have htbeq : tbls' = doc.tables := congrArg Prod.snd (hB.symm.trans hid4)
    have hid1 : statefulMap (stepPara2 (invoiceNumberStr r d) (dateFormat2 d)) sB ps1 =
        (sB, ps1) := by
      refine statefulMap_id sB ps1 ?_
      intro s' p hp
      have hp' : p ∈ doc.paragraphs := by rw [← hps1]; exact hp
      refine stepPara2_id _ _ s' p (hparas p hp') ?_
      refine hnone p ?_
      unfold docTexts
      exact List.mem_append_left _ hp'
    have hsC : sC = sB := congrArg Prod.fst (hC.symm.trans hid1)
    have hpeq : ps2 = ps1 := congrArg Prod.snd (hC.symm.trans hid1)
    constructor
    · rw [hsC, hsB', hsA]
      rfl
    · show (⟨ps2, tbls'⟩ : Doc) = doc
      rw [hpeq, hps1, htbeq]

/-- C8 witness: a template holding nothing but an invoice-number cell,
run with no prior files at 15 July 2025 and draw 1234; the cell is a
live invoice-number candidate, so the fire implication applies with a
true premise. -/
theorem c8_partial_updates_witness :
    (determineInvoiceDate [] ⟨2025, 7, 15⟩ = .ok ⟨2025, 7, 1⟩ ∧
      prevMonthE ⟨2025, 7, 1⟩ = .ok (2025, 6) ∧
      (∀ p ∈ ([] : List Text), HypC8 (invoiceNumberStr 1234 ⟨2025, 7, 1⟩) p) ∧
      (∀ tb ∈ [[[["Invoice No: IN1111/2024-25".toList]]]], ∀ rw ∈ tb, ∀ c ∈ rw, ∀ t ∈ c,
        HypC8 (invoiceNumberStr 1234 ⟨2025, 7, 1⟩) t) ∧
      (∃ t ∈ docTexts ⟨[], [[[["Invoice No: IN1111/2024-25".toList]]]]⟩,
        InvCand (invoiceNumberStr 1234 ⟨2025, 7, 1⟩) t)) ∧
    (∃ doc' st,
      autoUpdateTrace (.ok ⟨[], [[[["Invoice No: IN1111/2024-25".toList]]]]⟩) []
          ⟨2025, 7, 15⟩ 1234 true = some (fileNameFor ⟨2025, 7, 1⟩, doc', st) ∧
      st.f1 = false ∧ st.f2 = false ∧ st.fs = false ∧
      List.Forall₂ (RelC8 (invoiceNumberStr 1234 ⟨2025, 7, 1⟩)) [] doc'.paragraphs ∧
      List.Forall₂ (List.Forall₂ (List.Forall₂ (List.Forall₂
        (RelC8 (invoiceNumberStr 1234 ⟨2025, 7, 1⟩)))))
        [[[["Invoice No: IN1111/2024-25".toList]]]] doc'.tables ∧
      ((∃ t ∈ docTexts ⟨[], [[[["Invoice No: IN1111/2024-25".toList]]]]⟩,
          InvCand (invoiceNumberStr 1234 ⟨2025, 7, 1⟩) t) → st.fi = true) ∧
      ((∀ t ∈ docTexts ⟨[], [[[["Invoice No: IN1111/2024-25".toList]]]]⟩,
          ¬ InvCand (invoiceNumberStr 1234 ⟨2025, 7, 1⟩) t) →
        st.fi = false ∧ doc' = ⟨[], [[[["Invoice No: IN1111/2024-25".toList]]]]⟩)) :=
  ⟨⟨by decide, by decide, by simp,
      by simp only [List.forall_mem_singleton, HypC8, noMatch3]; decide,
      by simp only [docTexts, InvCand]; decide⟩,
    c8_partial_updates ⟨[], [[[["Invoice No: IN1111/2024-25".toList]]]]⟩ [] ⟨2025, 7, 15⟩
      1234 ⟨2025, 7, 1⟩ (2025, 6) (by decide) (by decide) (by simp)
      (by simp only [List.forall_mem_singleton, HypC8, noMatch3]; decide)⟩
